import Mathlib

/-!
# Directional boring: the drilling core of `sketch.js`

A shallow embedding of the simulation core of the horizontal directional
drilling game: the global variables become one record `Sim`, every function of
the sketch that touches them becomes a function on `Sim`.

Modelling conventions.

* JavaScript numbers that hold coordinates and angles are exact rationals.
* `p5.Vector.rotate`, `p5.Vector.fromAngle` and `dist` are library code (sine,
  cosine and a rounded square root); they are parameters, collected in `Env`.
  The sketch uses `dist` twice, as `Math.ceil(dist(..))` and as
  `dist(..) < 1.5`, both on the number the library returns.
* `hddScene.get(x, y)` is a lookup into the rendered terrain image: the scene
  is a function from points to lists of colour components (RGBA).  Outside the
  image p5 answers `[0, 0, 0, 0]`; scenes with that property are `CanvasScene`.
* `random(-randomFactor, 0)` is an input `u` of the step.
* Drawing calls (text, images, fog) do not touch the variables modelled here and
  are left out.
-/

namespace DirectionalBoring

/-! ## Data model -/

/-- The values taken by the global string `state`. -/
inductive GameState where
  | PAUSED
  | DRILLING
  | CONNECTION
  | STUCK
  | WIN
  | LOSE
  deriving DecidableEq

/-- A two-dimensional p5 vector. -/
structure Vec where
  x : ℚ
  y : ℚ
  deriving DecidableEq

/-- The method `p5.Vector.add`. -/
def Vec.add (a b : Vec) : Vec := ⟨a.x + b.x, a.y + b.y⟩

/-- One entry of `path`: the pair `[pos.copy(), dir.copy()]`. -/
abbrev Segment := Vec × Vec

/-- A colour as returned by `get`: a list of components. -/
abbrev Color := List ℕ

/-- The terrain image `hddScene`, read through `get(x, y)`. -/
abbrev Scene := Vec → Color

/-- The library functions on vectors that the sketch calls. -/
structure Env where
  rotate : Vec → ℚ → Vec
  fromAngle : ℚ → Vec
  dist : ℚ → ℚ → ℚ → ℚ → ℚ

/-- The shape of the constant `goal`. -/
structure Goal where
  x : ℚ
  w : ℚ

/-! ## Constants -/

def groundColor : Color := [11, 106, 136]
def groundLevel : ℚ := 100
def boulderColor : Color := [220, 150, 130]
def riverColor : Color := [0, 0, 255]
def backgroundColor : Color := [45, 197, 244]
def boundaryColor : Color := [0, 0, 0]
def goal : Goal := ⟨540, 20⟩
def goalColor : Color := [252, 238, 33]

def angle : ℚ := 1 / 100
def startingAngle : ℚ := 2967 / 10000
def machineWidth : ℚ := 80
def pipeLengthMult : ℚ := 87688219663 / 100000000000
/-- The constant `Math.floor(pipeLengthMult * machineWidth) - 2`. -/
def pipeLength : ℤ := ⌊pipeLengthMult * machineWidth⌋ - 2

def startingDepth : ℚ := 2
def startingX : ℚ := 90
def maxStuckTimes : ℕ := 3
def verticalPipeMovement : ℤ := 5

/-- Canvas width, from `createCanvas(600, 400)`. -/
def width : ℚ := 600
/-- Canvas height, from `createCanvas(600, 400)`. -/
def height : ℚ := 400

/-! ## The global variables -/

/-- The mutable globals of the sketch that the drilling core reads or writes. -/
structure Sim where
  pos : Vec
  dir : Vec
  bias : ℤ
  path : List Segment
  pathPosition : ℤ
  oldPaths : List (List Segment)
  stuckCount : ℕ
  sideTrackCount : ℕ
  startCount : ℕ
  state : GameState
  connectionCountDown : ℤ
  hddScene : Scene

/-! ## Distances -/

/-- Square of the exact distance between `(x1, y1)` and `(x2, y2)`. -/
def distSq (x1 y1 x2 y2 : ℚ) : ℚ := (x2 - x1) ^ 2 + (y2 - y1) ^ 2

/-- What `get` of p5 answers outside the image: `hddScene` is created with
`createGraphics(width, height)`, and `get(x, y)` returns `[0, 0, 0, 0]` when
`x < 0`, `y < 0`, `x >= width` or `y >= height`. -/
def CanvasScene (sc : Scene) : Prop :=
  ∀ p : Vec, p.x < 0 ∨ p.y < 0 ∨ p.x ≥ width ∨ p.y ≥ height → sc p = [0, 0, 0, 0]

/-! ## Scoring -/

/-- The function `drawEndGameStatsAtY`: the reward it returns. -/
def drawEndGameStatsAtY (env : Env) (s : Sim) : ℤ :=
  let reward : ℤ := if s.state = GameState.WIN then 5000 else 1000
  let reward : ℤ :=
    if s.state = GameState.WIN then reward - s.path.length
    else reward - ⌈env.dist s.pos.x s.pos.y (goal.x + goal.w / 2) groundLevel⌉
  let length : ℤ := s.oldPaths.foldl (fun acc oldPath => acc + oldPath.length) s.path.length
  let reward : ℤ := reward - length
  let startMult : ℤ := ⌈(pipeLength : ℚ) / 40⌉ * 10
  let startCost : ℤ := s.startCount * startMult
  let reward : ℤ := reward - startCost
  let sideTrackMult : ℤ := ⌈(pipeLength : ℚ) / 20⌉ * 10
  let sideTrackCost : ℤ := s.sideTrackCount * sideTrackMult
  let reward : ℤ := reward - sideTrackCost
  let stuckMult : ℤ := ⌈(pipeLength : ℚ) / 50⌉ * 50
  let stuckCost : ℤ := s.stuckCount * stuckMult
  reward - stuckCost

/-! ## Operations -/

/-- The function `startDrill`: reset to the initial state.  The freshly
generated terrain image is the argument `newScene`; `connectionCountDown` is
not assigned by `startDrill`. -/
def startDrill (env : Env) (newScene : Scene) (s : Sim) : Sim :=
  { pos := ⟨startingX, groundLevel + startingDepth⟩
    dir := env.fromAngle startingAngle
    path := []
    oldPaths := []
    pathPosition := -1
    stuckCount := 0
    startCount := 0
    sideTrackCount := 0
    bias := 1
    state := GameState.PAUSED
    connectionCountDown := s.connectionCountDown
    hddScene := newScene }

/-- The function `toggleBias`. -/
def toggleBias (s : Sim) : Sim := { s with bias := s.bias * -1 }

/-- The value of `oldPathPoint` in `startStopAction`: the first element of the
last entry of `oldPaths`, when there is one. -/
def oldPathPoint (s : Sim) : Option Segment :=
  let prevPath : Option (List Segment) :=
    if s.oldPaths.length > 0 then s.oldPaths.getLast? else none
  match prevPath with
  | some prevPath => if prevPath.length > 0 then prevPath.head? else none
  | none => none

/-- The function `startStopAction`.  In `WIN` and `LOSE` it re-seeds and calls
`startDrill`, whose new terrain is `newScene`. -/
def startStopAction (env : Env) (newScene : Scene) (s : Sim) : Sim :=
  if s.state = GameState.PAUSED ∨ s.state = GameState.STUCK then
    let sideTrackCount : ℕ :=
      match oldPathPoint s with
      | some p =>
        if env.dist s.pos.x s.pos.y p.1.x p.1.y < 3 / 2 then s.sideTrackCount + 1
        else s.sideTrackCount
      | none => s.sideTrackCount
    { s with
      state := GameState.DRILLING
      sideTrackCount := sideTrackCount
      startCount := s.startCount + 1 }
  else if s.state = GameState.DRILLING then
    { s with state := GameState.PAUSED }
  else if s.state = GameState.WIN ∨ s.state = GameState.LOSE then
    startDrill env newScene s
  else s

/-- The value of `prevPosition` in `pullBack`:
`Math.floor((pathPosition - 1) / pipeLength) * pipeLength`. -/
def prevPosition (s : Sim) : ℤ := Int.fdiv (s.pathPosition - 1) pipeLength * pipeLength

/-- The function `pullBack`.  The result is `none` when reading
`path[pathPosition][0]` throws because `path[pathPosition]` is undefined. -/
def pullBack (s : Sim) : Option Sim :=
  if s.state = GameState.PAUSED ∨ s.state = GameState.DRILLING ∨
      s.state = GameState.STUCK then
    if prevPosition s > 0 then
      let oldPaths := s.oldPaths ++ [s.path.drop (prevPosition s).toNat]
      let path := s.path.take (prevPosition s).toNat
      let pathPosition : ℤ := (path.length : ℤ) - 1
      -- `path[pathPosition]` with `pathPosition = path.length - 1`
      match path.getLast? with
      | some seg =>
        some { s with
          state := GameState.PAUSED
          oldPaths := oldPaths
          path := path
          pathPosition := pathPosition
          pos := seg.1
          dir := seg.2 }
      | none => none
    else some { s with state := GameState.PAUSED }
  else some s

/-- The angle of the first rotation in `drill`: `angle * bias`. -/
def steerRotation (bias : ℤ) : ℚ := angle * bias

/-- The angle `r` of the second rotation in `drill`, for the random draw `u`:
`(random(-randomFactor, 0) * angle * bias) / 100`. -/
def randomRotation (u : ℚ) (bias : ℤ) : ℚ := (u * angle * bias) / 100

/-- The direction after the two rotations of `drill`. -/
def drillDir (env : Env) (u : ℚ) (s : Sim) : Vec :=
  env.rotate (env.rotate s.dir (steerRotation s.bias)) (randomRotation u s.bias)

/-- The position after `pos.add(dir)` in `drill`. -/
def drillPos (env : Env) (u : ℚ) (s : Sim) : Vec := s.pos.add (drillDir env u s)

/-- The test `pos.x < 0 || pos.x > width || pos.y > height`. -/
def outOfBounds (p : Vec) : Bool := decide (p.x < 0 ∨ p.x > width ∨ p.y > height)

/-- The colour `c` compared in `drill`: `hddScene.get(pos.x, pos.y)` at the new
position, cut to its first three components by `c.splice(0, 3)`. -/
def drillColor (env : Env) (u : ℚ) (s : Sim) : Color := (s.hddScene (drillPos env u s)).take 3

/-- The function `drill`: one drill step, `u` being the value returned by
`random(-randomFactor, 0)`. -/
def drill (env : Env) (u : ℚ) (s : Sim) : Sim :=
  let dir := drillDir env u s
  let path := s.path ++ [(s.pos, dir)]
  let pathPosition : ℤ := (path.length : ℤ) - 1
  let connect : Bool := decide ((path.length : ℤ) % pipeLength = 0)
  let state := if connect then GameState.CONNECTION else s.state
  let connectionCountDown := if connect then verticalPipeMovement else s.connectionCountDown
  let pos := drillPos env u s
  let state := if outOfBounds pos then GameState.LOSE else state
  let c : Color := drillColor env u s
  let s1 : Sim :=
    { s with
      dir := dir
      path := path
      pathPosition := pathPosition
      connectionCountDown := connectionCountDown
      pos := pos
      state := state }
  if c = goalColor then
    { s1 with state := GameState.WIN }
  else if c = boulderColor then
    { s1 with
      stuckCount := s.stuckCount + 1
      state := if s.stuckCount + 1 ≥ maxStuckTimes then GameState.LOSE else GameState.STUCK }
  else if c = backgroundColor ∨ c = riverColor ∨ c = boundaryColor then
    { s1 with state := GameState.LOSE }
  else s1

/-- The block `if (state == "CONNECTION") { .. }` of `draw`: count the
connection down and resume drilling at zero. -/
def connectionTick (s : Sim) : Sim :=
  if s.state = GameState.CONNECTION then
    if s.connectionCountDown - 1 ≤ 0 then
      { s with connectionCountDown := s.connectionCountDown - 1, state := GameState.DRILLING }
    else { s with connectionCountDown := s.connectionCountDown - 1 }
  else s

/-- The function `draw`: one frame.  It drills when the state is `DRILLING`
and afterwards runs the connection block. -/
def draw (env : Env) (u : ℚ) (s : Sim) : Sim :=
  connectionTick (if s.state = GameState.DRILLING then drill env u s else s)

/-! ## Runs -/

/-- What can happen to a running sketch: a frame, or one of the three player
actions. -/
inductive Action where
  | tick (u : ℚ)
  | startStop (newScene : Scene)
  | pullBack
  | toggleBias

/-- The effect of one action; `none` when the handler throws. -/
def step (env : Env) (a : Action) (s : Sim) : Option Sim :=
  match a with
  | Action.tick u => some (draw env u s)
  | Action.startStop newScene => some (startStopAction env newScene s)
  | Action.pullBack => pullBack s
  | Action.toggleBias => some (toggleBias s)

/-- The states reachable from `startDrill` by any sequence of actions. -/
inductive Reachable (env : Env) : Sim → Prop where
  | start (newScene : Scene) (s : Sim) : Reachable env (startDrill env newScene s)
  | next {s t : Sim} (a : Action) : Reachable env s → step env a s = some t → Reachable env t

/-! ## Sample data -/

/-- Cosine of the angle whose half-angle tangent is `a / 2`. -/
def cosQ (a : ℚ) : ℚ := (4 - a ^ 2) / (4 + a ^ 2)

/-- Sine of the angle whose half-angle tangent is `a / 2`. -/
def sinQ (a : ℚ) : ℚ := 4 * a / (4 + a ^ 2)

/-- The square root of `q` cut after six decimals. -/
def sqrt6 (q : ℚ) : ℚ := (Nat.sqrt ⌊q * 10 ^ 12⌋.toNat : ℚ) / 10 ^ 6

/-- A vector library for the examples.  Its rotations are exact and rational:
`rotate v a` turns `v` by the angle whose half-angle tangent is `a / 2`, which
is `a` up to a term of order `a ^ 3`, and keeps the length of `v`.  Its `dist`
is the Euclidean distance cut after six decimals. -/
def sampleEnv : Env :=
  { rotate := fun v a => ⟨v.x * cosQ a - v.y * sinQ a, v.x * sinQ a + v.y * cosQ a⟩
    fromAngle := fun a => ⟨cosQ a, sinQ a⟩
    dist := fun x1 y1 x2 y2 => sqrt6 (distSq x1 y1 x2 y2) }

/-- A terrain image of one colour. -/
def plainScene (c : Color) : Scene := fun _ => c

/-- A canvas of one colour: `c` on the image, `[0, 0, 0, 0]` outside it. -/
def canvasScene (c : Color) : Scene := fun p =>
  if p.x < 0 ∨ p.y < 0 ∨ p.x ≥ width ∨ p.y ≥ height then [0, 0, 0, 0] else c

/-- A segment at the point `(x, y)` heading right. -/
def segAt (x y : ℚ) : Segment := (⟨x, y⟩, ⟨1, 0⟩)

/-- A state with the given fields, heading right with bias 1, over
ground-coloured terrain. -/
def sampleSim (st : GameState) (p : Vec) (path : List Segment) (old : List (List Segment))
    (stuck side starts : ℕ) : Sim :=
  { pos := p
    dir := ⟨1, 0⟩
    bias := 1
    path := path
    pathPosition := (path.length : ℤ) - 1
    oldPaths := old
    stuckCount := stuck
    sideTrackCount := side
    startCount := starts
    state := st
    connectionCountDown := 0
    hddScene := plainScene [11, 106, 136, 255] }

/-- A drilling state one step short of the right edge, over terrain of the
given colour. -/
def edgeSim (c : Color) : Sim :=
  { sampleSim GameState.DRILLING ⟨5999 / 10, 200⟩ [] [] 0 0 0 with hddScene := plainScene c }

/-- A drilling state one step short of the right edge, on a canvas of the given
colour, with the given stuck count. -/
def edgeCanvasSim (c : Color) (stuck : ℕ) : Sim :=
  { sampleSim GameState.DRILLING ⟨5999 / 10, 200⟩ [] [] stuck 0 0 with
    hddScene := canvasScene c }

/-- A drilling state in the middle of the field, over terrain of the given
colour, with the given path and stuck count. -/
def midSim (c : Color) (path : List Segment) (stuck : ℕ) : Sim :=
  { sampleSim GameState.DRILLING ⟨200, 200⟩ path [] stuck 0 1 with hddScene := plainScene c }

/-! ## Invariants -/

/-- The two facts about `stuckCount` carried along every run. -/
def StuckInv (s : Sim) : Prop :=
  s.stuckCount ≤ maxStuckTimes ∧ (s.state ≠ GameState.LOSE → s.stuckCount < maxStuckTimes)

/-- The ledger invariant: `pathPosition == path.length - 1`. -/
def PathInv (s : Sim) : Prop := s.pathPosition = (s.path.length : ℤ) - 1

/-- Two consecutive entries of the ledger: the later one was recorded one step
further along the direction of the earlier one, or at the same point (the
first entry drilled after a pull-back). -/
def Follows (a b : Segment) : Prop := b.1 = a.1.add a.2 ∨ b.1 = a.1

/-- Continuity of the ledger: consecutive entries of `path` follow each other
and the current position follows the last entry. -/
def LedgerInv (s : Sim) : Prop :=
  List.Chain' Follows s.path ∧ ∀ last ∈ s.path.getLast?, s.pos = last.1.add last.2 ∨ s.pos = last.1

/-! ## Sample runs -/

/-- A fresh run over boulder-coloured terrain: start, press start, one frame. -/
def stuckRun : Sim :=
  draw sampleEnv 0
    (startStopAction sampleEnv (plainScene [])
      (startDrill sampleEnv (plainScene [220, 150, 130, 255]) (edgeSim [])))

/-- A paused state whose path is `n` segments on a horizontal line, the
segment of index `i` at `(i, 200)`. -/
def lineSim (n : ℕ) : Sim :=
  sampleSim GameState.PAUSED ⟨n, 200⟩ ((List.range n).map fun (i : ℕ) => segAt (i : ℚ) 200) [] 0 0 1

/-- A paused state at the point `p` with one archived path that starts at
`(68, 200)`. -/
def sideSim (p : Vec) : Sim :=
  sampleSim GameState.PAUSED p [segAt 0 200] [[segAt 68 200, segAt 69 200]] 0 0 1

/-- A drilling state in the middle of the field whose path has 67 segments, one
short of the pipe length, over terrain of the given colour. -/
def connSim (c : Color) : Sim := midSim c (List.replicate 67 (segAt 0 200)) 0

/-- The run from `connSim` over boulder colour: a frame, the start button, a
second frame. -/
def crossRun : Sim :=
  draw sampleEnv 0
    (startStopAction sampleEnv (plainScene [])
      (draw sampleEnv 0 (connSim [220, 150, 130, 255])))

/-- The state after `n` frames with the random draw `u` in each. -/
def frames (env : Env) (u : ℚ) : ℕ → Sim → Sim
  | 0, s => s
  | n + 1, s => draw env u (frames env u n s)

/-- A fresh run over ground-coloured terrain, the start button pressed. -/
def freshRun : Sim :=
  startStopAction sampleEnv (plainScene [])
    (startDrill sampleEnv (plainScene [11, 106, 136, 255]) (edgeSim []))

/-- The fresh run after 74 frames: 70 drill steps and the four frames of pipe
handling that follow the 68th. -/
def longRun : Sim := frames sampleEnv 0 74 freshRun

/-- What the fresh run keeps while it drills through ground: `n` segments with
unit directions, a position within `n` of the start, one start and no
side-track. -/
def Cruise (n : ℕ) (s : Sim) : Prop :=
  s.hddScene = plainScene [11, 106, 136, 255] ∧ s.path.length = n ∧
  s.dir.x ^ 2 + s.dir.y ^ 2 = 1 ∧ (∀ seg ∈ s.path, seg.2.x ^ 2 + seg.2.y ^ 2 = 1) ∧
  |s.pos.x - 90| ≤ (n : ℚ) ∧ |s.pos.y - 102| ≤ (n : ℚ) ∧
  s.sideTrackCount = 0 ∧ s.startCount = 1

/-! ## Basic facts -/

theorem pipeLength_eq : pipeLength = 68 := by
  unfold pipeLength pipeLengthMult machineWidth
  norm_num [Int.floor_eq_iff]

theorem foldl_length_eq (l : List (List Segment)) (n : ℤ) :
    l.foldl (fun acc oldPath => acc + (oldPath.length : ℤ)) n
      = n + ((l.map List.length).sum : ℕ) := by
  induction l generalizing n with
  | nil => simp
  | cons a l ih =>
    simp only [List.foldl_cons, List.map_cons, List.sum_cons, ih]
    push_cast
    ring

theorem startMult_eq : ⌈(pipeLength : ℚ) / 40⌉ * 10 = 20 := by
  rw [pipeLength_eq]
  have : ⌈((68 : ℤ) : ℚ) / 40⌉ = 2 := by
    rw [Int.ceil_eq_iff]; norm_num
  rw [this]; rfl

theorem sideTrackMult_eq : ⌈(pipeLength : ℚ) / 20⌉ * 10 = 40 := by
  rw [pipeLength_eq]
  have : ⌈((68 : ℤ) : ℚ) / 20⌉ = 4 := by
    rw [Int.ceil_eq_iff]; norm_num
  rw [this]; rfl

theorem stuckMult_eq : ⌈(pipeLength : ℚ) / 50⌉ * 50 = 100 := by
  rw [pipeLength_eq]
  have : ⌈((68 : ℤ) : ℚ) / 50⌉ = 2 := by
    rw [Int.ceil_eq_iff]; norm_num
  rw [this]; rfl

theorem sqrt6_sq (r : ℕ) : sqrt6 ((r : ℚ) ^ 2) = r := by
  unfold sqrt6
  have h : ⌊((r : ℚ) ^ 2) * 10 ^ 12⌋.toNat = (r * 10 ^ 6) * (r * 10 ^ 6) := by
    have : ((r : ℚ) ^ 2) * 10 ^ 12 = (((r * 10 ^ 6) * (r * 10 ^ 6) : ℕ) : ℚ) := by
      push_cast
      ring
    rw [this, Int.floor_natCast, Int.toNat_natCast]
  rw [h, Nat.sqrt_eq]
  push_cast
  rw [mul_div_assoc]
  norm_num

theorem sqrt6_le_one (q : ℚ) (h : q ≤ 1) : sqrt6 q ≤ 1 := by
  unfold sqrt6
  have h1 : ⌊q * 10 ^ 12⌋ ≤ 10 ^ 12 := by
    have : q * 10 ^ 12 ≤ ((10 ^ 12 : ℤ) : ℚ) := by
      push_cast
      nlinarith
    exact Int.floor_le_floor this |>.trans (by rw [Int.floor_intCast])
  have h2 : ⌊q * 10 ^ 12⌋.toNat ≤ (10 ^ 6) * (10 ^ 6) := by
    omega
  have h3 : Nat.sqrt ⌊q * 10 ^ 12⌋.toNat ≤ 10 ^ 6 := by
    calc Nat.sqrt ⌊q * 10 ^ 12⌋.toNat ≤ Nat.sqrt ((10 ^ 6) * (10 ^ 6)) := Nat.sqrt_le_sqrt h2
      _ = 10 ^ 6 := Nat.sqrt_eq _
  rw [div_le_one (by positivity)]
  exact_mod_cast h3

/-- The sample `dist` answers below 1.5 for points at most 1 apart. -/
theorem sampleEnv_dist_near (x1 y1 x2 y2 : ℚ) (h : (x2 - x1) ^ 2 + (y2 - y1) ^ 2 ≤ 1) :
    sampleEnv.dist x1 y1 x2 y2 < 3 / 2 := by
  have h1 : sampleEnv.dist x1 y1 x2 y2 ≤ 1 := sqrt6_le_one _ h
  linarith

theorem drawEndGameStatsAtY_eq (env : Env) (s : Sim) :
    drawEndGameStatsAtY env s =
      (if s.state = GameState.WIN then (5000 : ℤ) - s.path.length
       else 1000 - ⌈env.dist s.pos.x s.pos.y 550 100⌉)
      - ((s.path.length : ℤ) + ((s.oldPaths.map List.length).sum : ℕ))
      - 20 * s.startCount - 40 * s.sideTrackCount - 100 * s.stuckCount := by
  unfold drawEndGameStatsAtY
  simp only [startMult_eq, sideTrackMult_eq, stuckMult_eq, foldl_length_eq]
  have hx : goal.x + goal.w / 2 = 550 := by
    simp only [goal]
    norm_num
  have hy : groundLevel = 100 := rfl
  rw [hx, hy]
  split_ifs <;> ring

theorem sample_dist_40 : sampleEnv.dist 550 140 550 100 = 40 := by
  have h : distSq 550 140 550 100 = ((40 : ℕ) : ℚ) ^ 2 := by
    simp only [distSq]
    norm_num
  show sqrt6 (distSq 550 140 550 100) = 40
  rw [h, sqrt6_sq]
  norm_num

/-! ## Scoring (C1) -/

/-- C1: for every state the reward returned by `drawEndGameStatsAtY` is
`base - distanceOrLength - totalDrilled - 20 * startCount - 40 * sideTrackCount
- 100 * stuckCount`, with base 5000 and the path length in `WIN`, and base 1000
and the ceiling of the distance that `dist` returns from the position to the
goal centre `(550, 100)` in every other state; `totalDrilled` is the path
length plus the lengths of all old paths.  With a path of 300, old paths of 50,
two starts, one side-track, one stuck, state `LOSE` and distance 40 the reward
is 430, and no floor is applied: with ten stucks it is -470. -/
theorem drawEndGameStatsAtY_formula :
    (∀ (env : Env) (s : Sim), drawEndGameStatsAtY env s =
      (if s.state = GameState.WIN then (5000 : ℤ) - s.path.length
       else 1000 - ⌈env.dist s.pos.x s.pos.y 550 100⌉)
      - ((s.path.length : ℤ) + ((s.oldPaths.map List.length).sum : ℕ))
      - 20 * s.startCount - 40 * s.sideTrackCount - 100 * s.stuckCount) ∧
    (∀ (env : Env) (s : Sim), s.state = GameState.LOSE →
      env.dist s.pos.x s.pos.y 550 100 = 40 → s.path.length = 300 →
      (s.oldPaths.map List.length).sum = 50 → s.startCount = 2 → s.sideTrackCount = 1 →
      s.stuckCount = 1 → drawEndGameStatsAtY env s = 430) ∧
    drawEndGameStatsAtY sampleEnv (sampleSim GameState.LOSE ⟨550, 140⟩
      (List.replicate 300 (segAt 0 0)) [List.replicate 50 (segAt 0 0)] 1 1 2) = 430 ∧
    drawEndGameStatsAtY sampleEnv (sampleSim GameState.LOSE ⟨550, 140⟩
      (List.replicate 300 (segAt 0 0)) [List.replicate 50 (segAt 0 0)] 10 1 2) = -470 := by
  refine ⟨drawEndGameStatsAtY_eq, ?_, ?_, ?_⟩
  · intro env s hs hd hn ho h1 h2 h3
    rw [drawEndGameStatsAtY_eq, hs, hd, hn, ho, h1, h2, h3, if_neg (by decide)]
    norm_num
  · rw [drawEndGameStatsAtY_eq]
    simp only [sampleSim, sample_dist_40, List.length_replicate, List.map_cons, List.map_nil,
      List.sum_cons, List.sum_nil]
    rw [if_neg (by decide)]
    norm_num
  · rw [drawEndGameStatsAtY_eq]
    simp only [sampleSim, sample_dist_40, List.length_replicate, List.map_cons, List.map_nil,
      List.sum_cons, List.sum_nil]
    rw [if_neg (by decide)]
    norm_num

/-! ## One drill step -/

theorem drill_path (env : Env) (u : ℚ) (s : Sim) :
    (drill env u s).path = s.path ++ [(s.pos, drillDir env u s)] := by
  unfold drill
  dsimp only
  split_ifs <;> rfl

theorem drill_pathPosition (env : Env) (u : ℚ) (s : Sim) :
    (drill env u s).pathPosition = (s.path.length : ℤ) := by
  unfold drill
  dsimp only
  split_ifs <;> simp

theorem drill_pos (env : Env) (u : ℚ) (s : Sim) :
    (drill env u s).pos = drillPos env u s := by
  unfold drill
  dsimp only
  split_ifs <;> rfl

theorem drill_dir (env : Env) (u : ℚ) (s : Sim) :
    (drill env u s).dir = drillDir env u s := by
  unfold drill
  dsimp only
  split_ifs <;> rfl

theorem drill_oldPaths (env : Env) (u : ℚ) (s : Sim) :
    (drill env u s).oldPaths = s.oldPaths := by
  unfold drill
  dsimp only
  split_ifs <;> rfl

theorem drill_sideTrackCount (env : Env) (u : ℚ) (s : Sim) :
    (drill env u s).sideTrackCount = s.sideTrackCount := by
  unfold drill
  dsimp only
  split_ifs <;> rfl

theorem drill_startCount (env : Env) (u : ℚ) (s : Sim) :
    (drill env u s).startCount = s.startCount := by
  unfold drill
  dsimp only
  split_ifs <;> rfl

theorem drill_connectionCountDown (env : Env) (u : ℚ) (s : Sim) :
    (drill env u s).connectionCountDown =
      if ((s.path.length : ℤ) + 1) % pipeLength = 0 then verticalPipeMovement
      else s.connectionCountDown := by
  unfold drill
  dsimp only
  split_ifs <;> simp_all

theorem goal_ne_boulder : goalColor ≠ boulderColor := by decide

theorem drill_stuckCount (env : Env) (u : ℚ) (s : Sim) :
    (drill env u s).stuckCount =
      if drillColor env u s = boulderColor then s.stuckCount + 1 else s.stuckCount := by
  unfold drill
  dsimp only
  split_ifs <;> first | rfl | (exfalso; simp_all [goalColor, boulderColor])

/-- The state after `drill`, branch by branch: the colour tests come last and
win over the bounds test, which wins over the connection test. -/
theorem drill_state (env : Env) (u : ℚ) (s : Sim) :
    (drill env u s).state =
      if drillColor env u s = goalColor then GameState.WIN
      else if drillColor env u s = boulderColor then
        (if s.stuckCount + 1 ≥ maxStuckTimes then GameState.LOSE else GameState.STUCK)
      else if drillColor env u s = backgroundColor ∨ drillColor env u s = riverColor ∨
          drillColor env u s = boundaryColor then GameState.LOSE
      else if outOfBounds (drillPos env u s) then GameState.LOSE
      else if ((s.path.length : ℤ) + 1) % pipeLength = 0 then GameState.CONNECTION
      else s.state := by
  unfold drill
  dsimp only
  split_ifs <;> simp_all

theorem sample_drillPos (s : Sim) (hd : s.dir = ⟨1, 0⟩) (hb : s.bias = 1) :
    drillPos sampleEnv 0 s = ⟨s.pos.x + 39999 / 40001, s.pos.y + 400 / 40001⟩ := by
  simp only [drillPos, drillDir, sampleEnv, steerRotation, randomRotation, cosQ, sinQ, hd, hb,
    angle, Vec.add]
  norm_num

theorem edgeSim_outOfBounds (c : Color) : outOfBounds (drillPos sampleEnv 0 (edgeSim c)) = true := by
  rw [sample_drillPos _ rfl rfl]
  simp only [outOfBounds, edgeSim, sampleSim, width, height, decide_eq_true_eq]
  norm_num

theorem midSim_inBounds (c : Color) (path : List Segment) (k : ℕ) :
    outOfBounds (drillPos sampleEnv 0 (midSim c path k)) = false := by
  rw [sample_drillPos _ rfl rfl]
  simp only [outOfBounds, midSim, sampleSim, width, height, decide_eq_false_iff_not]
  norm_num

/-! ## Leaving the field (C2) -/

/-- A drill step whose new position is outside the bounds ends in `LOSE` when
the colour returned there is neither the goal colour nor the boulder colour. -/
theorem drill_outOfBounds_lose_of_colour (env : Env) (u : ℚ) (s : Sim)
    (hb : (drillPos env u s).x < 0 ∨ (drillPos env u s).x > 600 ∨ (drillPos env u s).y > 400)
    (hg : (s.hddScene (drillPos env u s)).take 3 ≠ goalColor)
    (hbo : (s.hddScene (drillPos env u s)).take 3 ≠ boulderColor) :
    (drill env u s).state = GameState.LOSE := by
  have hb' : outOfBounds (drillPos env u s) = true := by
    simpa [outOfBounds, width, height] using hb
  rw [drill_state]
  simp only [drillColor, hg, hbo, hb', if_false, if_true]
  split_ifs <;> rfl

/-- The canvas condition carries the result: for a lookup that answered the
goal or the boulder colour outside the field, the colour tests of `drill`,
which run after the bounds test, would set `WIN` or `STUCK`. -/
theorem drill_outOfBounds_needs_canvas :
    outOfBounds (drillPos sampleEnv 0 (edgeSim [252, 238, 33, 255])) = true ∧
    (drill sampleEnv 0 (edgeSim [252, 238, 33, 255])).state = GameState.WIN ∧
    outOfBounds (drillPos sampleEnv 0 (edgeSim [220, 150, 130, 255])) = true ∧
    (drill sampleEnv 0 (edgeSim [220, 150, 130, 255])).state = GameState.STUCK := by
  refine ⟨edgeSim_outOfBounds _, ?_, edgeSim_outOfBounds _, ?_⟩
  · rw [drill_state]
    simp [drillColor, edgeSim, plainScene, goalColor]
  · rw [drill_state]
    simp [drillColor, edgeSim, sampleSim, plainScene, goalColor, boulderColor, maxStuckTimes]

theorem canvasScene_canvas (c : Color) : CanvasScene (canvasScene c) := by
  intro p hp
  simp only [canvasScene]
  rw [if_pos hp]

theorem canvas_outOfBounds (sc : Scene) (p : Vec) (hc : CanvasScene sc)
    (hb : p.x < 0 ∨ p.x > 600 ∨ p.y > 400) : sc p = [0, 0, 0, 0] := by
  apply hc
  simp only [width, height]
  rcases hb with h | h | h
  · exact Or.inl h
  · exact Or.inr (Or.inr (Or.inl (le_of_lt h)))
  · exact Or.inr (Or.inr (Or.inr (le_of_lt h)))

/-- C2: for a drill step on a terrain image as p5 serves it (`get` answers
`[0, 0, 0, 0]` outside the image), if the new position is outside the bounds
(`x < 0`, `x > width` or `y > height`) then the state after the step is `LOSE`,
whatever colours the image holds, the goal and the boulder colour included: the
lookup returns the boundary colour there, no colour test overwrites the `LOSE`
of the bounds test, and `stuckCount` is unchanged. -/
theorem drill_outOfBounds_lose (env : Env) (u : ℚ) (s : Sim)
    (hc : CanvasScene s.hddScene)
    (hb : (drillPos env u s).x < 0 ∨ (drillPos env u s).x > 600 ∨ (drillPos env u s).y > 400) :
    (s.hddScene (drillPos env u s)).take 3 = [0, 0, 0] ∧
    (drill env u s).state = GameState.LOSE ∧
    (drill env u s).stuckCount = s.stuckCount := by
  have hcol : s.hddScene (drillPos env u s) = [0, 0, 0, 0] :=
    canvas_outOfBounds _ _ hc hb
  have h3 : (s.hddScene (drillPos env u s)).take 3 = [0, 0, 0] := by
    rw [hcol]
    rfl
  refine ⟨h3, ?_, ?_⟩
  · apply drill_outOfBounds_lose_of_colour env u s hb
    · rw [h3]
      decide
    · rw [h3]
      decide
  · rw [drill_stuckCount, drillColor, h3, if_neg (by decide)]

/-- Steps off the right edge of a canvas painted all in the goal colour, and of
one painted all in the boulder colour, end in `LOSE`. -/
theorem drill_outOfBounds_lose_witness :
    (drill sampleEnv 0 (edgeCanvasSim [252, 238, 33, 255] 0)).state = GameState.LOSE ∧
    (drill sampleEnv 0 (edgeCanvasSim [220, 150, 130, 255] 0)).state = GameState.LOSE :=
  ⟨(drill_outOfBounds_lose sampleEnv 0 (edgeCanvasSim [252, 238, 33, 255] 0)
      (canvasScene_canvas _)
      (by
        rw [sample_drillPos _ rfl rfl]
        simp only [edgeCanvasSim, sampleSim]
        norm_num)).2.1,
    (drill_outOfBounds_lose sampleEnv 0 (edgeCanvasSim [220, 150, 130, 255] 0)
      (canvasScene_canvas _)
      (by
        rw [sample_drillPos _ rfl rfl]
        simp only [edgeCanvasSim, sampleSim]
        norm_num)).2.1⟩

/-! ## Terrain classification (C3) -/

/-- C3: a drill step from `DRILLING` whose new position is inside the bounds is
decided by the first three colour components at the new position.  Goal colour:
`WIN`.  Boulder colour: `stuckCount` grows by one, and the state is `STUCK` when
the new count is below 3 and `LOSE` otherwise.  Background, river or boundary
colour: `LOSE`.  Any other colour: `stuckCount` is unchanged and the state is
not `WIN`, `LOSE` or `STUCK`: it stays `DRILLING`, or is `CONNECTION` when the
new path length is a multiple of the pipe length 68. -/
theorem drill_inBounds_state (env : Env) (u : ℚ) (s : Sim)
    (hs : s.state = GameState.DRILLING)
    (hb : ¬ ((drillPos env u s).x < 0 ∨ (drillPos env u s).x > 600 ∨ (drillPos env u s).y > 400)) :
    ((s.hddScene (drillPos env u s)).take 3 = [252, 238, 33] →
      (drill env u s).state = GameState.WIN) ∧
    ((s.hddScene (drillPos env u s)).take 3 = [220, 150, 130] →
      (drill env u s).stuckCount = s.stuckCount + 1 ∧
      (drill env u s).state =
        if s.stuckCount + 1 < 3 then GameState.STUCK else GameState.LOSE) ∧
    ((s.hddScene (drillPos env u s)).take 3 = [45, 197, 244] ∨
      (s.hddScene (drillPos env u s)).take 3 = [0, 0, 255] ∨
      (s.hddScene (drillPos env u s)).take 3 = [0, 0, 0] →
      (drill env u s).state = GameState.LOSE) ∧
    ((s.hddScene (drillPos env u s)).take 3 ≠ [252, 238, 33] →
      (s.hddScene (drillPos env u s)).take 3 ≠ [220, 150, 130] →
      (s.hddScene (drillPos env u s)).take 3 ≠ [45, 197, 244] →
      (s.hddScene (drillPos env u s)).take 3 ≠ [0, 0, 255] →
      (s.hddScene (drillPos env u s)).take 3 ≠ [0, 0, 0] →
      (drill env u s).stuckCount = s.stuckCount ∧
      (drill env u s).state =
        if ((s.path.length : ℤ) + 1) % 68 = 0 then GameState.CONNECTION
        else GameState.DRILLING) := by
  have hb' : outOfBounds (drillPos env u s) = false := by
    simpa [outOfBounds, width, height] using hb
  refine ⟨?_, ?_, ?_, ?_⟩
  · intro h
    rw [drill_state]
    simp [drillColor, h, goalColor]
  · intro h
    rw [drill_state, drill_stuckCount]
    simp only [drillColor, h, goalColor, boulderColor, maxStuckTimes]
    refine ⟨by simp, ?_⟩
    by_cases h3 : s.stuckCount + 1 < 3
    · simp [h3, Nat.not_le.mpr h3]
    · simp [h3, Nat.not_lt.mp h3]
  · intro h
    rw [drill_state]
    rcases h with h | h | h <;>
      simp [drillColor, h, goalColor, boulderColor, backgroundColor, riverColor, boundaryColor]
  · intro h1 h2 h3 h4 h5
    rw [drill_state, drill_stuckCount]
    simp [drillColor, h1, h2, h3, h4, h5, goalColor, boulderColor, backgroundColor, riverColor,
      boundaryColor, hb', hs, pipeLength_eq]

/-- A step in the middle of the field over ground colour keeps `DRILLING`. -/
theorem drill_inBounds_state_witness :
    (drill sampleEnv 0 (midSim [11, 106, 136, 255] [] 0)).stuckCount = 0 ∧
    (drill sampleEnv 0 (midSim [11, 106, 136, 255] [] 0)).state = GameState.DRILLING :=
  (drill_inBounds_state sampleEnv 0 (midSim [11, 106, 136, 255] [] 0) rfl
    (by
      rw [sample_drillPos _ rfl rfl]
      simp only [midSim, sampleSim]
      norm_num)).2.2.2
    (by simp [midSim, plainScene]) (by simp [midSim, plainScene])
    (by simp [midSim, plainScene]) (by simp [midSim, plainScene])
    (by simp [midSim, plainScene])

/-! ## The other operations, field by field -/

theorem connectionTick_stuckCount (s : Sim) : (connectionTick s).stuckCount = s.stuckCount := by
  unfold connectionTick
  split_ifs <;> rfl

theorem connectionTick_sideTrackCount (s : Sim) :
    (connectionTick s).sideTrackCount = s.sideTrackCount := by
  unfold connectionTick
  split_ifs <;> rfl

theorem connectionTick_path (s : Sim) : (connectionTick s).path = s.path := by
  unfold connectionTick
  split_ifs <;> rfl

theorem connectionTick_pathPosition (s : Sim) :
    (connectionTick s).pathPosition = s.pathPosition := by
  unfold connectionTick
  split_ifs <;> rfl

theorem connectionTick_state (s : Sim) :
    (connectionTick s).state =
      if s.state = GameState.CONNECTION then
        (if s.connectionCountDown - 1 ≤ 0 then GameState.DRILLING else GameState.CONNECTION)
      else s.state := by
  unfold connectionTick
  split_ifs <;> simp_all

theorem connectionTick_state_of_ne (s : Sim) (h : s.state ≠ GameState.CONNECTION) :
    (connectionTick s).state = s.state := by
  rw [connectionTick_state, if_neg h]

theorem pullBack_fields (s t : Sim) (h : pullBack s = some t) :
    t.stuckCount = s.stuckCount ∧ t.sideTrackCount = s.sideTrackCount ∧
    t.startCount = s.startCount ∧ (t.state = GameState.PAUSED ∨ t.state = s.state) ∧
    t.pathPosition = (t.path.length : ℤ) - 1 ∨ t = s ∨ t = { s with state := GameState.PAUSED } := by
  unfold pullBack at h
  split_ifs at h with h1 h2
  · dsimp only at h
    split at h
    · simp only [Option.some.injEq] at h
      subst h
      left
      simp
    · exact absurd h (by simp)
  · simp only [Option.some.injEq] at h
    right; right
    exact h.symm
  · simp only [Option.some.injEq] at h
    right; left
    exact h.symm

theorem pullBack_stuckCount (s t : Sim) (h : pullBack s = some t) :
    t.stuckCount = s.stuckCount := by
  rcases pullBack_fields s t h with h | h | h
  · exact h.1
  · rw [h]
  · rw [h]

theorem pullBack_sideTrackCount (s t : Sim) (h : pullBack s = some t) :
    t.sideTrackCount = s.sideTrackCount := by
  rcases pullBack_fields s t h with h | h | h
  · exact h.2.1
  · rw [h]
  · rw [h]

theorem pullBack_state (s t : Sim) (h : pullBack s = some t) :
    t.state = GameState.PAUSED ∨ t.state = s.state := by
  rcases pullBack_fields s t h with h | h | h
  · exact h.2.2.2.1
  · right; rw [h]
  · left; rw [h]

theorem startStopAction_stuckCount (env : Env) (sc : Scene) (s : Sim) :
    (startStopAction env sc s).stuckCount =
      if s.state = GameState.WIN ∨ s.state = GameState.LOSE then 0 else s.stuckCount := by
  cases hst : s.state <;> simp [startStopAction, startDrill, hst]

theorem startStopAction_state (env : Env) (sc : Scene) (s : Sim) :
    (startStopAction env sc s).state =
      match s.state with
      | GameState.PAUSED => GameState.DRILLING
      | GameState.STUCK => GameState.DRILLING
      | GameState.DRILLING => GameState.PAUSED
      | GameState.WIN => GameState.PAUSED
      | GameState.LOSE => GameState.PAUSED
      | GameState.CONNECTION => GameState.CONNECTION := by
  unfold startStopAction
  cases hst : s.state <;> simp [startDrill, hst]

theorem draw_stuckCount (env : Env) (u : ℚ) (s : Sim) :
    (draw env u s).stuckCount =
      if s.state = GameState.DRILLING ∧ drillColor env u s = boulderColor then s.stuckCount + 1
      else s.stuckCount := by
  unfold draw
  rw [connectionTick_stuckCount]
  by_cases h : s.state = GameState.DRILLING
  · simp [h, drill_stuckCount]
  · simp [h]

theorem draw_state_boulder (env : Env) (u : ℚ) (s : Sim) (h : s.state = GameState.DRILLING)
    (hc : drillColor env u s = boulderColor) :
    (draw env u s).state =
      if s.stuckCount + 1 ≥ maxStuckTimes then GameState.LOSE else GameState.STUCK := by
  unfold draw
  rw [if_pos h]
  have hd : (drill env u s).state =
      if s.stuckCount + 1 ≥ maxStuckTimes then GameState.LOSE else GameState.STUCK := by
    rw [drill_state, hc]
    simp [goalColor, boulderColor]
  rw [connectionTick_state_of_ne, hd]
  rw [hd]
  split_ifs <;> decide

theorem draw_state_lose (env : Env) (u : ℚ) (s : Sim) (h : s.state = GameState.LOSE) :
    (draw env u s).state = GameState.LOSE := by
  unfold draw
  have h1 : s.state ≠ GameState.DRILLING := by rw [h]; decide
  rw [if_neg h1, connectionTick_state_of_ne _ (by rw [h]; decide), h]

theorem stuckInv_step (env : Env) (a : Action) (s t : Sim) (hi : StuckInv s)
    (h : step env a s = some t) : StuckInv t := by
  obtain ⟨hi1, hi2⟩ := hi
  cases a with
  | tick u =>
    simp only [step, Option.some.injEq] at h
    subst h
    unfold StuckInv
    rw [draw_stuckCount]
    by_cases hd : s.state = GameState.DRILLING
    · have hlt := hi2 (by rw [hd]; decide)
      by_cases hc : drillColor env u s = boulderColor
      · rw [draw_state_boulder env u s hd hc]
        simp only [hd, hc, and_self, if_true]
        by_cases h3 : s.stuckCount + 1 ≥ maxStuckTimes
        · simp only [h3, if_true]
          simp only [maxStuckTimes] at *
          exact ⟨by omega, fun hne => absurd rfl hne⟩
        · simp only [h3, if_false]
          simp only [maxStuckTimes] at *
          exact ⟨by omega, fun _ => by omega⟩
      · simp only [hd, hc, and_false, if_false]
        exact ⟨hi1, fun _ => hlt⟩
    · simp only [hd, false_and, if_false]
      refine ⟨hi1, fun hne => hi2 ?_⟩
      intro hl
      exact hne (draw_state_lose env u s hl)
  | startStop sc =>
    simp only [step, Option.some.injEq] at h
    subst h
    unfold StuckInv
    rw [startStopAction_stuckCount, startStopAction_state]
    simp only [maxStuckTimes] at hi1 hi2 ⊢
    cases hst : s.state <;> simp [hst] at hi2 ⊢ <;> omega
  | pullBack =>
    simp only [step] at h
    unfold StuckInv
    rw [pullBack_stuckCount s t h]
    refine ⟨hi1, fun hne => hi2 ?_⟩
    intro hl
    rcases pullBack_state s t h with hp | hp
    · unfold pullBack at h
      have : ¬ (s.state = GameState.PAUSED ∨ s.state = GameState.DRILLING ∨
          s.state = GameState.STUCK) := by rw [hl]; decide
      rw [if_neg this] at h
      simp only [Option.some.injEq] at h
      rw [← h] at hne
      exact hne hl
    · rw [hp] at hne
      exact hne hl
  | toggleBias =>
    simp only [step, Option.some.injEq] at h
    subst h
    exact ⟨hi1, hi2⟩

theorem stuckInv_reachable (env : Env) (s : Sim) (h : Reachable env s) : StuckInv s := by
  induction h with
  | start sc s0 => exact ⟨by simp [startDrill], fun _ => by simp [startDrill, maxStuckTimes]⟩
  | next a _ hstep ih => exact stuckInv_step env a _ _ ih hstep

theorem step_stuckCount (env : Env) (a : Action) (s t : Sim) (h : step env a s = some t) :
    (s.stuckCount ≤ t.stuckCount ∨
      (t.stuckCount = 0 ∧ ∃ sc, a = Action.startStop sc ∧ t = startDrill env sc s)) ∧
    (s.stuckCount < t.stuckCount → t.stuckCount = 3 → t.state = GameState.LOSE) := by
  cases a with
  | tick u =>
    simp only [step, Option.some.injEq] at h
    subst h
    rw [draw_stuckCount]
    by_cases hd : s.state = GameState.DRILLING ∧ drillColor env u s = boulderColor
    · rw [if_pos hd]
      refine ⟨Or.inl (Nat.le_succ _), fun _ h3 => ?_⟩
      rw [draw_state_boulder env u s hd.1 hd.2]
      simp [maxStuckTimes, h3]
    · rw [if_neg hd]
      exact ⟨Or.inl le_rfl, fun hlt => absurd hlt (lt_irrefl _)⟩
  | startStop sc =>
    simp only [step, Option.some.injEq] at h
    subst h
    rw [startStopAction_stuckCount]
    by_cases hw : s.state = GameState.WIN ∨ s.state = GameState.LOSE
    · rw [if_pos hw]
      refine ⟨Or.inr ⟨rfl, sc, rfl, ?_⟩, fun hlt => absurd hlt (Nat.not_lt_zero _)⟩
      rcases hw with hw | hw <;> simp [startStopAction, hw]
    · rw [if_neg hw]
      exact ⟨Or.inl le_rfl, fun hlt => absurd hlt (lt_irrefl _)⟩
  | pullBack =>
    simp only [step] at h
    rw [pullBack_stuckCount s t h]
    exact ⟨Or.inl le_rfl, fun hlt => absurd hlt (lt_irrefl _)⟩
  | toggleBias =>
    simp only [step, Option.some.injEq] at h
    subst h
    exact ⟨Or.inl le_rfl, fun hlt => absurd hlt (lt_irrefl _)⟩

theorem stuckRun_reachable : Reachable sampleEnv stuckRun :=
  Reachable.next (Action.tick 0)
    (Reachable.next (Action.startStop (plainScene [])) (Reachable.start _ _) rfl) rfl

theorem stuckRun_state : stuckRun.state = GameState.STUCK := by
  unfold stuckRun
  rw [draw_state_boulder _ _ _ (by simp [startStopAction, startDrill])
    (by simp [drillColor, startStopAction, startDrill, plainScene, boulderColor])]
  simp [startStopAction, startDrill, maxStuckTimes]

theorem stuckRun_stuckCount : stuckRun.stuckCount = 1 := by
  unfold stuckRun
  rw [draw_stuckCount]
  simp [drillColor, startStopAction, startDrill, plainScene, boulderColor]

/-! ## The stuck counter (C4) -/

/-- C4: in every state reachable from `startDrill` by frames, `startStopAction`,
`pullBack` and `toggleBias`, `stuckCount` is at most `maxStuckTimes = 3`, and it
is below 3 whenever the state is `STUCK`.  Every further action leaves
`stuckCount` at least as large, unless it is the `startStopAction` that runs
`startDrill` and resets it to 0; and an action that raises `stuckCount` to 3
leaves the state at `LOSE`. -/
theorem stuckCount_bounded (env : Env) (s : Sim) (h : Reachable env s) :
    s.stuckCount ≤ 3 ∧
    (s.state = GameState.STUCK → s.stuckCount < 3) ∧
    (∀ a t, step env a s = some t →
      (s.stuckCount ≤ t.stuckCount ∨
        (t.stuckCount = 0 ∧ ∃ sc, a = Action.startStop sc ∧ t = startDrill env sc s)) ∧
      (s.stuckCount < t.stuckCount → t.stuckCount = 3 → t.state = GameState.LOSE)) := by
  have hi := stuckInv_reachable env s h
  refine ⟨hi.1, fun hs => hi.2 (by rw [hs]; decide), fun a t ht => step_stuckCount env a s t ht⟩

/-- The run that gets stuck once over boulder-coloured terrain is reachable, in
state `STUCK` with `stuckCount = 1`, below the bound. -/
theorem stuckCount_bounded_witness :
    Reachable sampleEnv stuckRun ∧ stuckRun.state = GameState.STUCK ∧
    stuckRun.stuckCount = 1 ∧ stuckRun.stuckCount < 3 :=
  ⟨stuckRun_reachable, stuckRun_state, stuckRun_stuckCount,
    (stuckCount_bounded sampleEnv stuckRun stuckRun_reachable).2.1 stuckRun_state⟩

/-! ## The ledger invariant -/

theorem pathInv_empty_iff (s : Sim) (h : PathInv s) : s.pathPosition = -1 ↔ s.path = [] := by
  unfold PathInv at h
  rw [h]
  constructor
  · intro h1
    have : s.path.length = 0 := by omega
    exact List.length_eq_zero.mp this
  · intro h1
    rw [h1]
    rfl

theorem pathInv_startDrill (env : Env) (sc : Scene) (s : Sim) : PathInv (startDrill env sc s) := by
  simp [PathInv, startDrill]

theorem pathInv_drill (env : Env) (u : ℚ) (s : Sim) : PathInv (drill env u s) := by
  unfold PathInv
  rw [drill_pathPosition, drill_path]
  simp

theorem pathInv_pullBack (s t : Sim) (hi : PathInv s) (h : pullBack s = some t) : PathInv t := by
  rcases pullBack_fields s t h with h | h | h
  · exact h.2.2.2.2
  · rw [h]; exact hi
  · rw [h]; exact hi

theorem pathInv_startStopAction (env : Env) (sc : Scene) (s : Sim) (hi : PathInv s) :
    PathInv (startStopAction env sc s) := by
  unfold startStopAction
  split_ifs
  · exact hi
  · exact hi
  · exact pathInv_startDrill env sc s
  · exact hi

theorem pathInv_toggleBias (s : Sim) (hi : PathInv s) : PathInv (toggleBias s) := hi

theorem pathInv_connectionTick (s : Sim) (hi : PathInv s) : PathInv (connectionTick s) := by
  unfold PathInv
  rw [connectionTick_path, connectionTick_pathPosition]
  exact hi

theorem pathInv_draw (env : Env) (u : ℚ) (s : Sim) (hi : PathInv s) : PathInv (draw env u s) := by
  unfold draw
  apply pathInv_connectionTick
  split_ifs
  · exact pathInv_drill env u s
  · exact hi

theorem pathInv_step (env : Env) (a : Action) (s t : Sim) (hi : PathInv s)
    (h : step env a s = some t) : PathInv t := by
  cases a with
  | tick u =>
    simp only [step, Option.some.injEq] at h
    subst h
    exact pathInv_draw env u s hi
  | startStop sc =>
    simp only [step, Option.some.injEq] at h
    subst h
    exact pathInv_startStopAction env sc s hi
  | pullBack => exact pathInv_pullBack s t hi h
  | toggleBias =>
    simp only [step, Option.some.injEq] at h
    subst h
    exact hi

theorem pathInv_reachable (env : Env) (s : Sim) (h : Reachable env s) : PathInv s := by
  induction h with
  | start sc s0 => exact pathInv_startDrill env sc s0
  | next a _ hstep ih => exact pathInv_step env a _ _ ih hstep

theorem stuckRun_path_length : stuckRun.path.length = 1 := by
  unfold stuckRun draw
  rw [connectionTick_path, if_pos (by simp [startStopAction, startDrill]), drill_path]
  simp [startStopAction, startDrill]

/-! ## Path position (C5) -/

/-- C5: `pathPosition == path.length - 1` is an invariant.  `startDrill`
establishes it with an empty path and `pathPosition = -1`; under it,
`pathPosition = -1` exactly when the path is empty; every `drill` step appends
exactly one segment to the unchanged earlier path and re-establishes it;
`pullBack`, `startStopAction`, `toggleBias`, the connection block and a whole
frame preserve it; so it holds in every reachable state. -/
theorem pathPosition_invariant (env : Env) :
    (∀ sc s, (startDrill env sc s).path = [] ∧ (startDrill env sc s).pathPosition = -1) ∧
    (∀ s : Sim, s.pathPosition = (s.path.length : ℤ) - 1 →
      (s.pathPosition = -1 ↔ s.path = [])) ∧
    (∀ u s, (drill env u s).path = s.path ++ [(s.pos, (drill env u s).dir)] ∧
      (drill env u s).path.length = s.path.length + 1 ∧
      (drill env u s).pathPosition = ((drill env u s).path.length : ℤ) - 1) ∧
    (∀ s t : Sim, s.pathPosition = (s.path.length : ℤ) - 1 → pullBack s = some t →
      t.pathPosition = (t.path.length : ℤ) - 1) ∧
    (∀ sc (s : Sim), s.pathPosition = (s.path.length : ℤ) - 1 →
      (startStopAction env sc s).pathPosition =
        ((startStopAction env sc s).path.length : ℤ) - 1) ∧
    (∀ s : Sim, s.pathPosition = (s.path.length : ℤ) - 1 →
      (toggleBias s).pathPosition = ((toggleBias s).path.length : ℤ) - 1) ∧
    (∀ s : Sim, s.pathPosition = (s.path.length : ℤ) - 1 →
      (connectionTick s).pathPosition = ((connectionTick s).path.length : ℤ) - 1) ∧
    (∀ u (s : Sim), s.pathPosition = (s.path.length : ℤ) - 1 →
      (draw env u s).pathPosition = ((draw env u s).path.length : ℤ) - 1) ∧
    (∀ s : Sim, Reachable env s →
      s.pathPosition = (s.path.length : ℤ) - 1 ∧ (s.pathPosition = -1 ↔ s.path = [])) := by
  refine ⟨fun sc s => ⟨rfl, rfl⟩, fun s hi => pathInv_empty_iff s hi, fun u s => ?_,
    fun s t hi h => pathInv_pullBack s t hi h,
    fun sc s hi => pathInv_startStopAction env sc s hi,
    fun s hi => pathInv_toggleBias s hi,
    fun s hi => pathInv_connectionTick s hi,
    fun u s hi => pathInv_draw env u s hi,
    fun s h => ⟨pathInv_reachable env s h, pathInv_empty_iff s (pathInv_reachable env s h)⟩⟩
  refine ⟨?_, ?_, pathInv_drill env u s⟩
  · rw [drill_path, drill_dir]
  · rw [drill_path]
    simp

/-- The run that drilled one segment has `pathPosition = 0` and a path of
length 1. -/
theorem pathPosition_invariant_witness :
    stuckRun.path.length = 1 ∧ stuckRun.pathPosition = 0 := by
  have h := ((pathPosition_invariant sampleEnv).2.2.2.2.2.2.2.2 stuckRun stuckRun_reachable).1
  rw [stuckRun_path_length] at h
  exact ⟨stuckRun_path_length, by simpa using h⟩

/-! ## Pull-back -/

theorem prevPosition_eq (s : Sim) : prevPosition s = (s.pathPosition - 1) / 68 * 68 := by
  unfold prevPosition
  rw [pipeLength_eq, Int.fdiv_eq_ediv _ (by norm_num)]

theorem prevPosition_largest (s : Sim) (b : ℤ) (hdvd : (68 : ℤ) ∣ b) (hlt : b < s.pathPosition)
    (hmax : ∀ m : ℤ, 68 ∣ m → m < s.pathPosition → m ≤ b) : prevPosition s = b := by
  rw [prevPosition_eq]
  have ha : (s.pathPosition - 1) / 68 * 68 ≤ b := hmax _ (Dvd.intro_left _ rfl) (by omega)
  obtain ⟨k, rfl⟩ := hdvd
  omega

theorem pullBack_of_prevPosition_pos (s : Sim) (seg : Segment)
    (hst : s.state = GameState.PAUSED ∨ s.state = GameState.DRILLING ∨
      s.state = GameState.STUCK)
    (hpos : 0 < prevPosition s)
    (hlast : (s.path.take (prevPosition s).toNat).getLast? = some seg) :
    pullBack s = some { s with
      state := GameState.PAUSED
      oldPaths := s.oldPaths ++ [s.path.drop (prevPosition s).toNat]
      path := s.path.take (prevPosition s).toNat
      pathPosition := ((s.path.take (prevPosition s).toNat).length : ℤ) - 1
      pos := seg.1
      dir := seg.2 } := by
  unfold pullBack
  rw [if_pos hst, if_pos hpos]
  simp only [hlast]

theorem pullBack_of_prevPosition_nonpos (s : Sim)
    (hst : s.state = GameState.PAUSED ∨ s.state = GameState.DRILLING ∨
      s.state = GameState.STUCK)
    (hpos : ¬ 0 < prevPosition s) :
    pullBack s = some { s with state := GameState.PAUSED } := by
  unfold pullBack
  rw [if_pos hst, if_neg hpos]

theorem pullBack_isSome (s : Sim) (hi : PathInv s) : (pullBack s).isSome = true := by
  unfold PathInv at hi
  by_cases hst : s.state = GameState.PAUSED ∨ s.state = GameState.DRILLING ∨
      s.state = GameState.STUCK
  · by_cases hpos : 0 < prevPosition s
    · have hp := prevPosition_eq s
      have hlen : (prevPosition s).toNat - 1 < s.path.length := by omega
      have hnz : (prevPosition s).toNat ≠ 0 := by omega
      have hlast : (s.path.take (prevPosition s).toNat).getLast?
          = some (s.path.get ⟨(prevPosition s).toNat - 1, hlen⟩) := by
        rw [List.getLast?_take, if_neg hnz, List.getElem?_eq_getElem hlen]
        rfl
      rw [pullBack_of_prevPosition_pos s _ hst hpos hlast]
      rfl
    · rw [pullBack_of_prevPosition_nonpos s hst hpos]
      rfl
  · unfold pullBack
    rw [if_neg hst]
    rfl

/-- No handler throws in a reachable state: every action has a successor. -/
theorem step_isSome_of_reachable (env : Env) (a : Action) (s : Sim) (h : Reachable env s) :
    (step env a s).isSome = true := by
  cases a with
  | tick u => rfl
  | startStop sc => rfl
  | pullBack => exact pullBack_isSome s (pathInv_reachable env s h)
  | toggleBias => rfl

/-! ## Pull-back that retracts (C6) -/

/-- C6: in `PAUSED`, `DRILLING` or `STUCK` with `pathPosition == path.length - 1`,
let `b` be the largest multiple of the pipe length 68 strictly below
`pathPosition`.  If `b > 0`, `pullBack` succeeds; it appends to `oldPaths` the
one entry made of the segments of `path` from index `b` on, cuts `path` to its
first `b` segments (a positive multiple of 68), sets `pathPosition` to `b - 1`,
and sets position and direction to the segment of index `b - 1`, the last of
the new path; the old path is the new path followed by the archived entry. -/
theorem pullBack_retracts (s : Sim) (b : ℤ)
    (hst : s.state = GameState.PAUSED ∨ s.state = GameState.DRILLING ∨
      s.state = GameState.STUCK)
    (hpp : s.pathPosition = (s.path.length : ℤ) - 1)
    (hdvd : (68 : ℤ) ∣ b) (hlt : b < s.pathPosition)
    (hmax : ∀ m : ℤ, 68 ∣ m → m < s.pathPosition → m ≤ b)
    (hpos : 0 < b) :
    ∃ t seg, pullBack s = some t ∧
      t.oldPaths = s.oldPaths ++ [s.path.drop b.toNat] ∧
      t.path = s.path.take b.toNat ∧
      (t.path.length : ℤ) = b ∧
      (∃ k : ℤ, 0 < k ∧ (t.path.length : ℤ) = k * 68) ∧
      t.pathPosition = b - 1 ∧
      s.path[(b - 1).toNat]? = some seg ∧
      t.path.getLast? = some seg ∧
      t.pos = seg.1 ∧ t.dir = seg.2 ∧
      s.path = t.path ++ s.path.drop b.toNat := by
  have hprev : prevPosition s = b := prevPosition_largest s b hdvd hlt hmax
  have hlen : b.toNat - 1 < s.path.length := by omega
  have hnz : b.toNat ≠ 0 := by omega
  have hidx : (b - 1).toNat = b.toNat - 1 := by omega
  have hlast : (s.path.take b.toNat).getLast? = some (s.path.get ⟨b.toNat - 1, hlen⟩) := by
    rw [List.getLast?_take, if_neg hnz, List.getElem?_eq_getElem hlen]
    rfl
  have htl : ((s.path.take b.toNat).length : ℤ) = b := by
    rw [List.length_take]
    omega
  have hpb := pullBack_of_prevPosition_pos s (s.path.get ⟨b.toNat - 1, hlen⟩) hst
    (by rw [hprev]; exact hpos) (by rw [hprev]; exact hlast)
  rw [hprev] at hpb
  refine ⟨_, s.path.get ⟨b.toNat - 1, hlen⟩, hpb, rfl, rfl, htl, ?_, ?_, ?_, hlast, rfl, rfl, ?_⟩
  · obtain ⟨k, hk⟩ := hdvd
    exact ⟨k, by omega, by rw [htl, hk]; ring⟩
  · show ((s.path.take b.toNat).length : ℤ) - 1 = b - 1
    rw [htl]
  · rw [hidx, List.getElem?_eq_getElem hlen]
    rfl
  · exact (List.take_append_drop b.toNat s.path).symm

/-- A paused run of 100 segments is pulled back to its first 68: the bit is
restored to the segment of index 67 and 32 segments are archived. -/
theorem pullBack_retracts_witness :
    ∃ t, pullBack (lineSim 100) = some t ∧ (t.path.length : ℤ) = 68 ∧ t.pathPosition = 67 ∧
      t.pos = ⟨67, 200⟩ ∧ t.oldPaths.map List.length = [32] := by
  obtain ⟨t, seg, h1, h2, _, h4, _, h6, h7, _, h9, _, _⟩ :=
    pullBack_retracts (lineSim 100) 68 (Or.inl rfl) rfl (dvd_refl _)
      (by simp [lineSim, sampleSim])
      (by
        intro m hk hm
        obtain ⟨k, hk⟩ := hk
        simp [lineSim, sampleSim] at hm
        omega)
      (by norm_num)
  have hseg : seg = segAt 67 200 := by
    have h67 : ((68 : ℤ) - 1).toNat = 67 := by decide
    rw [h67] at h7
    simp [lineSim, sampleSim] at h7
    exact h7.symm
  refine ⟨t, h1, h4, by rw [h6]; norm_num, by rw [h9, hseg]; simp [segAt], ?_⟩
  rw [h2]
  simp [lineSim, sampleSim]

/-! ## Pull-back that cannot retract (C7) -/

/-- C7: `pullBack` is a no-op when it cannot retract.  In `PAUSED`, `DRILLING`
or `STUCK` with `pathPosition <= 68` it returns the state with only `state` set
to `PAUSED`; on the empty path, `pathPosition = -1`, the aligned index is the
negative `-68` of floor division.  In `CONNECTION`, `WIN` or `LOSE` it returns
the state unchanged.  It does not fail in these cases, nor in any state with
`pathPosition == path.length - 1`. -/
theorem pullBack_noop (s : Sim) :
    (s.state = GameState.PAUSED ∨ s.state = GameState.DRILLING ∨ s.state = GameState.STUCK →
      s.pathPosition ≤ 68 → pullBack s = some { s with state := GameState.PAUSED }) ∧
    (s.pathPosition = -1 → prevPosition s = -68) ∧
    (s.state = GameState.CONNECTION ∨ s.state = GameState.WIN ∨ s.state = GameState.LOSE →
      pullBack s = some s) ∧
    (s.pathPosition = (s.path.length : ℤ) - 1 → (pullBack s).isSome = true) := by
  refine ⟨fun hst hle => ?_, fun h => ?_, fun hst => ?_, fun hi => pullBack_isSome s hi⟩
  · apply pullBack_of_prevPosition_nonpos s hst
    rw [prevPosition_eq]
    omega
  · rw [prevPosition_eq, h]
    decide
  · unfold pullBack
    rw [if_neg]
    rcases hst with h | h | h <;> rw [h] <;> decide

/-- A drilling state with an empty path and a lost state: the first is only
paused, the second is returned as it is. -/
theorem pullBack_noop_witness :
    pullBack (midSim [11, 106, 136, 255] [] 0) =
      some { midSim [11, 106, 136, 255] [] 0 with state := GameState.PAUSED } ∧
    prevPosition (midSim [11, 106, 136, 255] [] 0) = -68 ∧
    pullBack (sampleSim GameState.LOSE ⟨200, 200⟩ [] [] 3 0 1) =
      some (sampleSim GameState.LOSE ⟨200, 200⟩ [] [] 3 0 1) :=
  ⟨(pullBack_noop (midSim [11, 106, 136, 255] [] 0)).1 (Or.inr (Or.inl rfl)) (by decide),
    (pullBack_noop (midSim [11, 106, 136, 255] [] 0)).2.1 rfl,
    (pullBack_noop (sampleSim GameState.LOSE ⟨200, 200⟩ [] [] 3 0 1)).2.2.1
      (Or.inr (Or.inr rfl))⟩

/-! ## Start and side-track accounting -/

theorem oldPathPoint_eq (s : Sim) : oldPathPoint s = s.oldPaths.getLast?.bind List.head? := by
  unfold oldPathPoint
  cases hl : s.oldPaths.getLast? with
  | none =>
    simp
  | some prev =>
    have hne : s.oldPaths ≠ [] := by
      intro h
      rw [h] at hl
      simp at hl
    have hpos : s.oldPaths.length > 0 := List.length_pos.mpr hne
    cases prev with
    | nil => simp [hpos]
    | cons a l => simp [hpos]

theorem startStopAction_sideTrackCount (env : Env) (sc : Scene) (s : Sim)
    (hs : s.state = GameState.PAUSED ∨ s.state = GameState.STUCK) :
    (startStopAction env sc s).sideTrackCount =
      match s.oldPaths.getLast?.bind List.head? with
      | some p =>
        if env.dist s.pos.x s.pos.y p.1.x p.1.y < 3 / 2 then s.sideTrackCount + 1
        else s.sideTrackCount
      | none => s.sideTrackCount := by
  unfold startStopAction
  rw [if_pos hs, oldPathPoint_eq]

theorem startStopAction_resume (env : Env) (sc : Scene) (s : Sim)
    (hs : s.state = GameState.PAUSED ∨ s.state = GameState.STUCK) :
    (startStopAction env sc s).state = GameState.DRILLING ∧
    (startStopAction env sc s).startCount = s.startCount + 1 ∧
    ((∃ prev p, s.oldPaths.getLast? = some prev ∧ prev.head? = some p ∧
        env.dist s.pos.x s.pos.y p.1.x p.1.y < 3 / 2) →
      (startStopAction env sc s).sideTrackCount = s.sideTrackCount + 1) ∧
    (¬ (∃ prev p, s.oldPaths.getLast? = some prev ∧ prev.head? = some p ∧
        env.dist s.pos.x s.pos.y p.1.x p.1.y < 3 / 2) →
      (startStopAction env sc s).sideTrackCount = s.sideTrackCount) := by
  refine ⟨?_, ?_, ?_, ?_⟩
  · unfold startStopAction
    rw [if_pos hs]
  · unfold startStopAction
    rw [if_pos hs]
  · rintro ⟨prev, p, h1, h2, h3⟩
    rw [startStopAction_sideTrackCount env sc s hs, h1]
    simp only [Option.some_bind, h2]
    rw [if_pos h3]
  · intro hn
    rw [startStopAction_sideTrackCount env sc s hs]
    cases h1 : s.oldPaths.getLast? with
    | none => simp
    | some prev =>
      cases h2 : prev.head? with
      | none => simp [h2]
      | some p =>
        simp only [Option.some_bind, h2]
        have h3 : ¬ env.dist s.pos.x s.pos.y p.1.x p.1.y < 3 / 2 :=
          fun h3 => hn ⟨prev, p, h1, h2, h3⟩
        rw [if_neg h3]

theorem step_sideTrackCount (env : Env) (a : Action) (s t : Sim) (h : step env a s = some t) :
    t.sideTrackCount = s.sideTrackCount ∨
    ∃ sc, a = Action.startStop sc ∧
      ((s.state = GameState.PAUSED ∨ s.state = GameState.STUCK) ∨
        ((s.state = GameState.WIN ∨ s.state = GameState.LOSE) ∧
          t = startDrill env sc s ∧ t.sideTrackCount = 0)) := by
  cases a with
  | tick u =>
    simp only [step, Option.some.injEq] at h
    subst h
    left
    unfold draw
    rw [connectionTick_sideTrackCount]
    split_ifs
    · exact drill_sideTrackCount env u s
    · rfl
  | startStop sc =>
    simp only [step, Option.some.injEq] at h
    subst h
    cases hst : s.state
    · exact Or.inr ⟨sc, rfl, Or.inl (Or.inl rfl)⟩
    · left; simp [startStopAction, hst]
    · left; simp [startStopAction, hst]
    · exact Or.inr ⟨sc, rfl, Or.inl (Or.inr rfl)⟩
    · refine Or.inr ⟨sc, rfl, Or.inr ⟨Or.inl rfl, ?_, ?_⟩⟩ <;> simp [startStopAction, hst, startDrill]
    · refine Or.inr ⟨sc, rfl, Or.inr ⟨Or.inr rfl, ?_, ?_⟩⟩ <;> simp [startStopAction, hst, startDrill]
  | pullBack =>
    simp only [step] at h
    exact Or.inl (pullBack_sideTrackCount s t h)
  | toggleBias =>
    simp only [step, Option.some.injEq] at h
    subst h
    exact Or.inl rfl

/-! ## Start and side-track counters (C8) -/

/-- C8: a `startStopAction` taken in `PAUSED` or `STUCK` resumes drilling and
raises `startCount` by exactly 1; it raises `sideTrackCount` by exactly 1 when
`oldPaths` is non-empty and `dist` from the current position to the first
segment of its last entry returns less than 1.5, and leaves it unchanged
otherwise.  No other action changes `sideTrackCount`, except the
`startStopAction` that runs `startDrill`, which resets it to 0. -/
theorem sideTrack_accounting (env : Env) :
    (∀ sc (s : Sim), s.state = GameState.PAUSED ∨ s.state = GameState.STUCK →
      (startStopAction env sc s).state = GameState.DRILLING ∧
      (startStopAction env sc s).startCount = s.startCount + 1 ∧
      ((∃ prev p, s.oldPaths.getLast? = some prev ∧ prev.head? = some p ∧
          env.dist s.pos.x s.pos.y p.1.x p.1.y < 3 / 2) →
        (startStopAction env sc s).sideTrackCount = s.sideTrackCount + 1) ∧
      (¬ (∃ prev p, s.oldPaths.getLast? = some prev ∧ prev.head? = some p ∧
          env.dist s.pos.x s.pos.y p.1.x p.1.y < 3 / 2) →
        (startStopAction env sc s).sideTrackCount = s.sideTrackCount)) ∧
    (∀ a (s t : Sim), step env a s = some t →
      t.sideTrackCount = s.sideTrackCount ∨
      ∃ sc, a = Action.startStop sc ∧
        ((s.state = GameState.PAUSED ∨ s.state = GameState.STUCK) ∨
          ((s.state = GameState.WIN ∨ s.state = GameState.LOSE) ∧
            t = startDrill env sc s ∧ t.sideTrackCount = 0))) :=
  ⟨fun sc s hs => startStopAction_resume env sc s hs,
    fun a s t h => step_sideTrackCount env a s t h⟩

theorem sample_dist_1 : sampleEnv.dist 67 200 68 200 = 1 := by
  have h : distSq 67 200 68 200 = ((1 : ℕ) : ℚ) ^ 2 := by
    simp only [distSq]
    norm_num
  show sqrt6 (distSq 67 200 68 200) = 1
  rw [h, sqrt6_sq]
  norm_num

theorem sample_dist_8 : sampleEnv.dist 60 200 68 200 = 8 := by
  have h : distSq 60 200 68 200 = ((8 : ℕ) : ℚ) ^ 2 := by
    simp only [distSq]
    norm_num
  show sqrt6 (distSq 60 200 68 200) = 8
  rw [h, sqrt6_sq]
  norm_num

/-- Resuming one unit from the start of the archived path counts a start and a
side-track; resuming eight units from it counts only the start. -/
theorem sideTrack_accounting_witness :
    (startStopAction sampleEnv (plainScene []) (sideSim ⟨67, 200⟩)).startCount = 2 ∧
    (startStopAction sampleEnv (plainScene []) (sideSim ⟨67, 200⟩)).sideTrackCount = 1 ∧
    (startStopAction sampleEnv (plainScene []) (sideSim ⟨60, 200⟩)).sideTrackCount = 0 := by
  have h1 := (sideTrack_accounting sampleEnv).1 (plainScene []) (sideSim ⟨67, 200⟩) (Or.inl rfl)
  have h2 := (sideTrack_accounting sampleEnv).1 (plainScene []) (sideSim ⟨60, 200⟩) (Or.inl rfl)
  refine ⟨h1.2.1, h1.2.2.1 ⟨[segAt 68 200, segAt 69 200], segAt 68 200, rfl, rfl, ?_⟩,
    h2.2.2.2 ?_⟩
  · show sampleEnv.dist 67 200 68 200 < 3 / 2
    rw [sample_dist_1]
    norm_num
  · rintro ⟨prev, p, hp, hh, hlt⟩
    simp only [sideSim, sampleSim, List.getLast?_singleton, Option.some.injEq] at hp
    subst hp
    simp only [List.head?_cons, Option.some.injEq] at hh
    subst hh
    have hlt : sampleEnv.dist 60 200 68 200 < 3 / 2 := hlt
    rw [sample_dist_8] at hlt
    norm_num at hlt

/-! ## Steering (C9) -/

/-- C9: for a bias of `+1` or `-1`, a randomness setting `R` between 0 and 100
and a random draw `u` between `-R` and 0, the two rotations that `drill`
applies to the direction add up to `angle * bias + u * angle * bias / 100` with
`angle = 1 / 100`; this total has the sign of the bias or is zero, and its
magnitude is at most `angle`, the magnitude of the commanded turn. -/
theorem drill_rotation_bounded (bias : ℤ) (R u : ℚ) (hb : bias = 1 ∨ bias = -1)
    (_hR0 : 0 ≤ R) (hR : R ≤ 100) (hu : -R ≤ u) (hu0 : u ≤ 0) :
    (∀ env (s : Sim), s.bias = bias →
      (drill env u s).dir =
        env.rotate (env.rotate s.dir (steerRotation bias)) (randomRotation u bias)) ∧
    steerRotation bias + randomRotation u bias
      = 1 / 100 * (bias : ℚ) + u * (1 / 100) * (bias : ℚ) / 100 ∧
    0 ≤ (steerRotation bias + randomRotation u bias) * (bias : ℚ) ∧
    (bias = 1 → 0 ≤ steerRotation bias + randomRotation u bias) ∧
    (bias = -1 → steerRotation bias + randomRotation u bias ≤ 0) ∧
    |steerRotation bias + randomRotation u bias| ≤ 1 / 100 ∧
    |steerRotation bias + randomRotation u bias| ≤ |steerRotation bias| := by
  refine ⟨fun env s hs => ?_, ?_, ?_⟩
  · rw [drill_dir, drillDir, hs]
  · simp only [steerRotation, randomRotation, angle]
  · rcases hb with hb | hb
    · subst hb
      have hs : |steerRotation 1| = 1 / 100 := by
        simp only [steerRotation, angle, Int.cast_one]
        rw [abs_of_pos] <;> norm_num
      have ht : steerRotation 1 + randomRotation u 1 = 1 / 100 + u / 10000 := by
        simp only [steerRotation, randomRotation, angle, Int.cast_one]
        ring
      have habs : |steerRotation 1 + randomRotation u 1| ≤ 1 / 100 := by
        rw [ht, abs_le]
        constructor <;> linarith
      rw [hs]
      refine ⟨?_, fun _ => ?_, fun h => absurd h (by decide), habs, habs⟩
      · rw [ht]
        simp only [Int.cast_one]
        linarith
      · rw [ht]
        linarith
    · subst hb
      have hs : |steerRotation (-1)| = 1 / 100 := by
        simp only [steerRotation, angle, Int.cast_neg, Int.cast_one]
        rw [abs_of_neg] <;> norm_num
      have ht : steerRotation (-1) + randomRotation u (-1) = -(1 / 100 + u / 10000) := by
        simp only [steerRotation, randomRotation, angle, Int.cast_neg, Int.cast_one]
        ring
      have habs : |steerRotation (-1) + randomRotation u (-1)| ≤ 1 / 100 := by
        rw [ht, abs_le]
        constructor <;> linarith
      rw [hs]
      refine ⟨?_, fun h => absurd h (by decide), fun _ => ?_, habs, habs⟩
      · rw [ht]
        simp only [Int.cast_neg, Int.cast_one]
        linarith
      · rw [ht]
        linarith

/-- With bias 1, setting 50 and draw `-25` the total rotation is `3 / 400`. -/
theorem drill_rotation_bounded_witness :
    steerRotation 1 + randomRotation (-25) 1 = 3 / 400 ∧
    |steerRotation 1 + randomRotation (-25) 1| ≤ 1 / 100 := by
  have h := drill_rotation_bounded 1 50 (-25) (Or.inl rfl) (by norm_num) (by norm_num)
    (by norm_num) (by norm_num)
  refine ⟨?_, h.2.2.2.2.2.1⟩
  rw [h.2.1]
  norm_num

/-! ## Pipe connections -/

theorem drill_length (env : Env) (u : ℚ) (s : Sim) :
    (drill env u s).path.length = s.path.length + 1 := by
  rw [drill_path]
  simp

theorem drill_state_connection_iff (env : Env) (u : ℚ) (s : Sim)
    (hs : s.state ≠ GameState.CONNECTION) :
    (drill env u s).state = GameState.CONNECTION ↔
      ((drill env u s).path.length : ℤ) % 68 = 0 ∧
      ¬ ((drillPos env u s).x < 0 ∨ (drillPos env u s).x > 600 ∨ (drillPos env u s).y > 400) ∧
      (s.hddScene (drillPos env u s)).take 3 ≠ [252, 238, 33] ∧
      (s.hddScene (drillPos env u s)).take 3 ≠ [220, 150, 130] ∧
      (s.hddScene (drillPos env u s)).take 3 ≠ [45, 197, 244] ∧
      (s.hddScene (drillPos env u s)).take 3 ≠ [0, 0, 255] ∧
      (s.hddScene (drillPos env u s)).take 3 ≠ [0, 0, 0] := by
  rw [drill_state, drill_length]
  simp only [drillColor, goalColor, boulderColor, backgroundColor, riverColor, boundaryColor,
    outOfBounds, width, height, pipeLength_eq, Nat.cast_add, Nat.cast_one, decide_eq_true_eq]
  by_cases h1 : (s.hddScene (drillPos env u s)).take 3 = [252, 238, 33]
  · simp [h1]
  by_cases h2 : (s.hddScene (drillPos env u s)).take 3 = [220, 150, 130]
  · simp only [h1, h2, if_false, if_true]
    split_ifs <;> simp
  by_cases h3 : (s.hddScene (drillPos env u s)).take 3 = [45, 197, 244]
  · simp [h3]
  by_cases h4 : (s.hddScene (drillPos env u s)).take 3 = [0, 0, 255]
  · simp [h4]
  by_cases h5 : (s.hddScene (drillPos env u s)).take 3 = [0, 0, 0]
  · simp [h5]
  by_cases hb : (drillPos env u s).x < 0 ∨ (drillPos env u s).x > 600 ∨ (drillPos env u s).y > 400
  · simp [h1, h2, h3, h4, h5, hb]
  by_cases hm : ((s.path.length : ℤ) + 1) % 68 = 0
  · simp [h1, h2, h3, h4, h5, hb, hm]
  · simp [h1, h2, h3, h4, h5, hb, hm, hs]

theorem step_state_connection (env : Env) (a : Action) (s t : Sim)
    (hs : s.state ≠ GameState.CONNECTION) (h : step env a s = some t)
    (ht : t.state = GameState.CONNECTION) :
    ∃ u, a = Action.tick u ∧ s.state = GameState.DRILLING ∧
      (drill env u s).state = GameState.CONNECTION ∧ t.path = (drill env u s).path := by
  cases a with
  | tick u =>
    simp only [step, Option.some.injEq] at h
    subst h
    unfold draw at ht ⊢
    by_cases hd : s.state = GameState.DRILLING
    · rw [if_pos hd] at ht ⊢
      refine ⟨u, rfl, hd, ?_, connectionTick_path _⟩
      by_contra hne
      rw [connectionTick_state_of_ne _ hne] at ht
      exact hne ht
    · rw [if_neg hd] at ht
      rw [connectionTick_state_of_ne _ hs] at ht
      exact absurd ht hs
  | startStop sc =>
    simp only [step, Option.some.injEq] at h
    subst h
    rw [startStopAction_state] at ht
    cases hst : s.state <;> simp [hst] at ht hs
  | pullBack =>
    simp only [step] at h
    rcases pullBack_state s t h with hp | hp
    · rw [hp] at ht
      exact absurd ht (by decide)
    · rw [hp] at ht
      exact absurd ht hs
  | toggleBias =>
    simp only [step, Option.some.injEq] at h
    subst h
    exact absurd ht hs

theorem connSim_length (c : Color) : (connSim c).path.length = 67 := by
  simp [connSim, midSim, sampleSim]

theorem drill_hddScene (env : Env) (u : ℚ) (s : Sim) : (drill env u s).hddScene = s.hddScene := by
  unfold drill
  dsimp only
  split_ifs <;> rfl

theorem connectionTick_hddScene (s : Sim) : (connectionTick s).hddScene = s.hddScene := by
  unfold connectionTick
  split_ifs <;> rfl

theorem draw_hddScene (env : Env) (u : ℚ) (s : Sim) : (draw env u s).hddScene = s.hddScene := by
  unfold draw
  rw [connectionTick_hddScene]
  split_ifs
  · exact drill_hddScene env u s
  · rfl

theorem draw_path_drilling (env : Env) (u : ℚ) (s : Sim) (h : s.state = GameState.DRILLING) :
    (draw env u s).path = (drill env u s).path := by
  unfold draw
  rw [connectionTick_path, if_pos h]

theorem startStopAction_resume_fields (env : Env) (sc : Scene) (s : Sim)
    (hs : s.state = GameState.STUCK) :
    (startStopAction env sc s).hddScene = s.hddScene ∧
    (startStopAction env sc s).path = s.path ∧
    (startStopAction env sc s).stuckCount = s.stuckCount ∧
    (startStopAction env sc s).state = GameState.DRILLING := by
  simp [startStopAction, hs]

theorem connSim_boulder_draw :
    (draw sampleEnv 0 (connSim [220, 150, 130, 255])).state = GameState.STUCK ∧
    (draw sampleEnv 0 (connSim [220, 150, 130, 255])).stuckCount = 1 ∧
    (draw sampleEnv 0 (connSim [220, 150, 130, 255])).path.length = 68 := by
  have hc : drillColor sampleEnv 0 (connSim [220, 150, 130, 255]) = boulderColor := by
    simp [drillColor, connSim, midSim, plainScene, boulderColor]
  refine ⟨?_, ?_, ?_⟩
  · rw [draw_state_boulder _ _ _ rfl hc]
    simp [connSim, midSim, sampleSim, maxStuckTimes]
  · rw [draw_stuckCount, if_pos ⟨rfl, hc⟩]
    rfl
  · rw [draw_path_drilling _ _ _ rfl, drill_length, connSim_length]

/-! ## Pipe connections (C10) -/

/-- C10, as stated, fails: from `DRILLING` with 67 segments over boulder
colour, the drill step brings the path length to 68, a multiple of the pipe
length, and arms the countdown, but the state after the step and after the
frame is `STUCK`; after the start button and one more frame the path has 69
segments, and the run never was in `CONNECTION`. -/
theorem drill_multiple_not_connection :
    (connSim [220, 150, 130, 255]).state = GameState.DRILLING ∧
    ((drill sampleEnv 0 (connSim [220, 150, 130, 255])).path.length : ℤ) % pipeLength = 0 ∧
    (drill sampleEnv 0 (connSim [220, 150, 130, 255])).connectionCountDown = 5 ∧
    (drill sampleEnv 0 (connSim [220, 150, 130, 255])).state = GameState.STUCK ∧
    (draw sampleEnv 0 (connSim [220, 150, 130, 255])).state = GameState.STUCK ∧
    (startStopAction sampleEnv (plainScene [])
      (draw sampleEnv 0 (connSim [220, 150, 130, 255]))).state = GameState.DRILLING ∧
    crossRun.path.length = 69 ∧ crossRun.state = GameState.STUCK := by
  obtain ⟨h1, h2, h3⟩ := connSim_boulder_draw
  obtain ⟨g1, g2, g3, g4⟩ :=
    startStopAction_resume_fields sampleEnv (plainScene []) _ h1
  have hc : drillColor sampleEnv 0 (startStopAction sampleEnv (plainScene [])
      (draw sampleEnv 0 (connSim [220, 150, 130, 255]))) = boulderColor := by
    unfold drillColor
    rw [g1, draw_hddScene]
    simp [connSim, midSim, plainScene, boulderColor]
  refine ⟨rfl, ?_, ?_, ?_, h1, g4, ?_, ?_⟩
  · rw [drill_length, connSim_length, pipeLength_eq]
    decide
  · rw [drill_connectionCountDown, connSim_length, pipeLength_eq]
    decide
  · rw [drill_state]
    simp [drillColor, connSim, midSim, sampleSim, plainScene, goalColor, boulderColor,
      maxStuckTimes]
  · unfold crossRun
    rw [draw_path_drilling _ _ _ g4, drill_length, g2, h3]
  · unfold crossRun
    rw [draw_state_boulder _ _ _ g4 hc, g3, h2]
    decide

/-- C10, amended: a drill step from `DRILLING` lengthens the path by one and
arms `connectionCountDown` to 5 when the new path length is a multiple of the
pipe length 68.  The state after the step is `CONNECTION` exactly when, in
addition, the new position is inside the bounds and its colour is none of goal,
boulder, background, river and boundary.  No action leads from another state
into `CONNECTION` except a frame whose drill step ends there, so each multiple
reached gives at most one `CONNECTION` transition. -/
theorem drill_connection (env : Env) (u : ℚ) (s : Sim) (hs : s.state = GameState.DRILLING) :
    (drill env u s).path.length = s.path.length + 1 ∧
    (((drill env u s).path.length : ℤ) % 68 = 0 → (drill env u s).connectionCountDown = 5) ∧
    ((drill env u s).state = GameState.CONNECTION ↔
      ((drill env u s).path.length : ℤ) % 68 = 0 ∧
      ¬ ((drillPos env u s).x < 0 ∨ (drillPos env u s).x > 600 ∨ (drillPos env u s).y > 400) ∧
      (s.hddScene (drillPos env u s)).take 3 ≠ [252, 238, 33] ∧
      (s.hddScene (drillPos env u s)).take 3 ≠ [220, 150, 130] ∧
      (s.hddScene (drillPos env u s)).take 3 ≠ [45, 197, 244] ∧
      (s.hddScene (drillPos env u s)).take 3 ≠ [0, 0, 255] ∧
      (s.hddScene (drillPos env u s)).take 3 ≠ [0, 0, 0]) ∧
    (∀ a (s0 t : Sim), s0.state ≠ GameState.CONNECTION → step env a s0 = some t →
      t.state = GameState.CONNECTION →
      ∃ v, a = Action.tick v ∧ s0.state = GameState.DRILLING ∧
        (drill env v s0).state = GameState.CONNECTION ∧ t.path = (drill env v s0).path) := by
  refine ⟨drill_length env u s, fun hm => ?_,
    drill_state_connection_iff env u s (by rw [hs]; decide),
    fun a s0 t h0 h ht => step_state_connection env a s0 t h0 h ht⟩
  rw [drill_length] at hm
  rw [drill_connectionCountDown, pipeLength_eq]
  push_cast at hm
  rw [if_pos hm]
  rfl

/-- From 67 segments over ground colour the drill step ends in `CONNECTION`
with the countdown at 5. -/
theorem drill_connection_witness :
    (drill sampleEnv 0 (connSim [11, 106, 136, 255])).state = GameState.CONNECTION ∧
    (drill sampleEnv 0 (connSim [11, 106, 136, 255])).connectionCountDown = 5 := by
  have h := drill_connection sampleEnv 0 (connSim [11, 106, 136, 255]) rfl
  have hm : ((drill sampleEnv 0 (connSim [11, 106, 136, 255])).path.length : ℤ) % 68 = 0 := by
    rw [h.1, connSim_length]
    decide
  refine ⟨h.2.2.1.mpr ⟨hm, ?_, ?_, ?_, ?_, ?_, ?_⟩, h.2.1 hm⟩
  · rw [sample_drillPos _ rfl rfl]
    simp only [connSim, midSim, sampleSim]
    norm_num
  all_goals simp [connSim, midSim, plainScene]

/-! ## Continuity of the ledger -/

theorem connectionTick_pos (s : Sim) : (connectionTick s).pos = s.pos := by
  unfold connectionTick
  split_ifs <;> rfl

theorem pullBack_cases (s t : Sim) (h : pullBack s = some t) :
    t = s ∨ t = { s with state := GameState.PAUSED } ∨
    ∃ seg, (s.path.take (prevPosition s).toNat).getLast? = some seg ∧
      t = { s with
        state := GameState.PAUSED
        oldPaths := s.oldPaths ++ [s.path.drop (prevPosition s).toNat]
        path := s.path.take (prevPosition s).toNat
        pathPosition := ((s.path.take (prevPosition s).toNat).length : ℤ) - 1
        pos := seg.1
        dir := seg.2 } := by
  unfold pullBack at h
  split_ifs at h with h1 h2
  · dsimp only at h
    split at h
    · rename_i seg hseg
      simp only [Option.some.injEq] at h
      exact Or.inr (Or.inr ⟨seg, hseg, h.symm⟩)
    · exact absurd h (by simp)
  · simp only [Option.some.injEq] at h
    exact Or.inr (Or.inl h.symm)
  · simp only [Option.some.injEq] at h
    exact Or.inl h.symm

theorem ledgerInv_startDrill (env : Env) (sc : Scene) (s : Sim) :
    LedgerInv (startDrill env sc s) := by
  simp [LedgerInv, startDrill]

theorem ledgerInv_drill (env : Env) (u : ℚ) (s : Sim) (hi : LedgerInv s) :
    LedgerInv (drill env u s) := by
  obtain ⟨hc, hl⟩ := hi
  unfold LedgerInv
  rw [drill_path, drill_pos]
  constructor
  · rw [List.chain'_append]
    refine ⟨hc, List.chain'_singleton _, ?_⟩
    intro x hx y hy
    simp only [List.head?_cons, Option.mem_def, Option.some.injEq] at hy
    subst hy
    exact hl x hx
  · intro last hlast
    simp only [List.getLast?_append, List.getLast?_singleton, Option.mem_def] at hlast
    have hlast : (s.pos, drillDir env u s) = last := Option.some.inj hlast
    subst hlast
    left
    rfl

theorem ledgerInv_pullBack (s t : Sim) (hi : LedgerInv s) (h : pullBack s = some t) :
    LedgerInv t := by
  rcases pullBack_cases s t h with h | h | ⟨seg, hseg, h⟩
  · rw [h]; exact hi
  · rw [h]; exact hi
  · rw [h]
    refine ⟨hi.1.take _, ?_⟩
    intro last hlast
    simp only [Option.mem_def] at hlast
    rw [hseg] at hlast
    simp only [Option.some.injEq] at hlast
    subst hlast
    right
    rfl

theorem ledgerInv_startStopAction (env : Env) (sc : Scene) (s : Sim) (hi : LedgerInv s) :
    LedgerInv (startStopAction env sc s) := by
  unfold startStopAction
  split_ifs
  · exact hi
  · exact hi
  · exact ledgerInv_startDrill env sc s
  · exact hi

theorem ledgerInv_connectionTick (s : Sim) (hi : LedgerInv s) : LedgerInv (connectionTick s) := by
  unfold LedgerInv
  rw [connectionTick_path, connectionTick_pos]
  exact hi

theorem ledgerInv_step (env : Env) (a : Action) (s t : Sim) (hi : LedgerInv s)
    (h : step env a s = some t) : LedgerInv t := by
  cases a with
  | tick u =>
    simp only [step, Option.some.injEq] at h
    subst h
    unfold draw
    apply ledgerInv_connectionTick
    split_ifs
    · exact ledgerInv_drill env u s hi
    · exact hi
  | startStop sc =>
    simp only [step, Option.some.injEq] at h
    subst h
    exact ledgerInv_startStopAction env sc s hi
  | pullBack => exact ledgerInv_pullBack s t hi h
  | toggleBias =>
    simp only [step, Option.some.injEq] at h
    subst h
    exact hi

theorem ledgerInv_reachable (env : Env) (s : Sim) (h : Reachable env s) : LedgerInv s := by
  induction h with
  | start sc s0 => exact ledgerInv_startDrill env sc s0
  | next a _ hstep ih => exact ledgerInv_step env a _ _ ih hstep

/-- Consecutive entries of the path of a state with a continuous ledger, by
index. -/
theorem ledgerInv_consecutive (s : Sim) (hi : LedgerInv s) (i : ℕ) (a b : Segment)
    (ha : s.path[i]? = some a) (hb : s.path[i + 1]? = some b) : Follows a b := by
  have hlen : i + 1 < s.path.length := by
    by_contra hn
    rw [List.getElem?_eq_none (by omega)] at hb
    exact absurd hb (by simp)
  have h := List.chain'_iff_get.mp hi.1 i (by omega)
  rw [List.getElem?_eq_getElem (by omega)] at ha
  rw [List.getElem?_eq_getElem hlen] at hb
  simp only [Option.some.injEq] at ha hb
  subst ha
  subst hb
  exact h

theorem follows_distSq (a b : Segment) (h : Follows a b) (hu : a.2.x ^ 2 + a.2.y ^ 2 = 1) :
    (b.1 = a.1.add a.2 ∧ distSq a.1.x a.1.y b.1.x b.1.y = 1) ∨
    (b.1 = a.1 ∧ distSq a.1.x a.1.y b.1.x b.1.y = 0) := by
  rcases h with h | h
  · left
    refine ⟨h, ?_⟩
    rw [h]
    simp only [distSq, Vec.add]
    rw [← hu]
    ring
  · right
    refine ⟨h, ?_⟩
    rw [h]
    simp [distSq]

theorem sqrt_distSq (x1 y1 x2 y2 : ℚ) :
    Real.sqrt (((x2 - x1) ^ 2 + (y2 - y1) ^ 2 : ℚ) : ℝ)
      = Real.sqrt ((distSq x1 y1 x2 y2 : ℚ) : ℝ) := rfl

/-! ## Pull-back and resume (C11) -/

/-- C11: in a state reachable from `startDrill` whose recorded directions have
unit length, consecutive path segments are one unit step apart or at the same
position; so a `pullBack` that retracts (state `PAUSED`, `DRILLING` or `STUCK`,
aligned index above 0) succeeds and restores a position at distance at most 1
from the first segment of the entry it archives, and the `startStopAction`
that follows resumes drilling and raises both `sideTrackCount` and
`startCount` by exactly 1.  The library function `dist` is taken to return
less than 1.5 for two points that are at most 1 apart. -/
theorem pullBack_resume_sideTrack (env : Env) (sc : Scene) (s : Sim)
    (hr : Reachable env s)
    (hunit : ∀ seg ∈ s.path, seg.2.x ^ 2 + seg.2.y ^ 2 = 1)
    (hdist : ∀ x1 y1 x2 y2 : ℚ, (x2 - x1) ^ 2 + (y2 - y1) ^ 2 ≤ 1 →
      env.dist x1 y1 x2 y2 < 3 / 2)
    (hst : s.state = GameState.PAUSED ∨ s.state = GameState.DRILLING ∨
      s.state = GameState.STUCK)
    (hb : 0 < prevPosition s) :
    (∀ (i : ℕ) (a b : Segment), s.path[i]? = some a → s.path[i + 1]? = some b →
      (b.1 = a.1.add a.2 ∧
        Real.sqrt (((b.1.x - a.1.x) ^ 2 + (b.1.y - a.1.y) ^ 2 : ℚ) : ℝ) = 1) ∨
      b.1 = a.1) ∧
    ∃ t first, pullBack s = some t ∧
      t.oldPaths = s.oldPaths ++ [s.path.drop (prevPosition s).toNat] ∧
      (s.path.drop (prevPosition s).toNat).head? = some first ∧
      Real.sqrt (((first.1.x - t.pos.x) ^ 2 + (first.1.y - t.pos.y) ^ 2 : ℚ) : ℝ) ≤ 1 ∧
      (startStopAction env sc t).state = GameState.DRILLING ∧
      (startStopAction env sc t).sideTrackCount = s.sideTrackCount + 1 ∧
      (startStopAction env sc t).startCount = s.startCount + 1 := by
  have hp : s.pathPosition = (s.path.length : ℤ) - 1 := pathInv_reachable env s hr
  have hl := ledgerInv_reachable env s hr
  constructor
  · intro i a b ha hbb
    rcases follows_distSq a b (ledgerInv_consecutive s hl i a b ha hbb)
      (hunit a (List.getElem?_mem ha)) with h | h
    · left
      refine ⟨h.1, ?_⟩
      rw [sqrt_distSq, h.2]
      simp
    · exact Or.inr h.1
  · have he := prevPosition_eq s
    have h1 : (prevPosition s).toNat - 1 < s.path.length := by omega
    have h2 : (prevPosition s).toNat < s.path.length := by omega
    have hnz : (prevPosition s).toNat ≠ 0 := by omega
    have hsucc : (prevPosition s).toNat - 1 + 1 = (prevPosition s).toNat := by omega
    have hlast : (s.path.take (prevPosition s).toNat).getLast?
        = some (s.path.get ⟨(prevPosition s).toNat - 1, h1⟩) := by
      rw [List.getLast?_take, if_neg hnz, List.getElem?_eq_getElem h1]
      rfl
    have hhead : (s.path.drop (prevPosition s).toNat).head?
        = some (s.path.get ⟨(prevPosition s).toNat, h2⟩) := by
      rw [List.head?_drop, List.getElem?_eq_getElem h2]
      rfl
    have hpb := pullBack_of_prevPosition_pos s _ hst hb hlast
    have hfol := ledgerInv_consecutive s hl ((prevPosition s).toNat - 1)
      (s.path.get ⟨(prevPosition s).toNat - 1, h1⟩) (s.path.get ⟨(prevPosition s).toNat, h2⟩)
      (by rw [List.getElem?_eq_getElem h1]; rfl)
      (by rw [hsucc, List.getElem?_eq_getElem h2]; rfl)
    have hd := follows_distSq _ _ hfol (hunit _ (List.get_mem _ _ _))
    have hle : distSq (s.path.get ⟨(prevPosition s).toNat - 1, h1⟩).1.x
        (s.path.get ⟨(prevPosition s).toNat - 1, h1⟩).1.y
        (s.path.get ⟨(prevPosition s).toNat, h2⟩).1.x
        (s.path.get ⟨(prevPosition s).toNat, h2⟩).1.y ≤ 1 := by
      rcases hd with h | h
      · exact le_of_eq h.2
      · rw [h.2]
        norm_num
    refine ⟨_, s.path.get ⟨(prevPosition s).toNat, h2⟩, hpb, rfl, hhead, ?_, ?_, ?_, ?_⟩
    · rw [sqrt_distSq, Real.sqrt_le_one]
      exact_mod_cast hle
    · simp [startStopAction]
    · rw [startStopAction_sideTrackCount _ _ _ (Or.inl rfl)]
      simp only [List.getLast?_concat, Option.some_bind, hhead]
      rw [if_pos]
      exact hdist _ _ _ _ hle
    · simp [startStopAction]

/-! ## A long sample run -/

theorem cosQ_sq_add_sinQ_sq (a : ℚ) : cosQ a ^ 2 + sinQ a ^ 2 = 1 := by
  have h : (4 + a ^ 2) ≠ 0 := by positivity
  unfold cosQ sinQ
  field_simp
  ring

theorem sampleEnv_rotate_unit (v : Vec) (a : ℚ) (h : v.x ^ 2 + v.y ^ 2 = 1) :
    (sampleEnv.rotate v a).x ^ 2 + (sampleEnv.rotate v a).y ^ 2 = 1 := by
  have hc := cosQ_sq_add_sinQ_sq a
  simp only [sampleEnv]
  calc (v.x * cosQ a - v.y * sinQ a) ^ 2 + (v.x * sinQ a + v.y * cosQ a) ^ 2
      = (v.x ^ 2 + v.y ^ 2) * (cosQ a ^ 2 + sinQ a ^ 2) := by ring
    _ = 1 := by rw [h, hc]; norm_num

theorem unit_bounds (v : Vec) (h : v.x ^ 2 + v.y ^ 2 = 1) : |v.x| ≤ 1 ∧ |v.y| ≤ 1 := by
  constructor
  · rw [abs_le]
    constructor <;> nlinarith [sq_nonneg (v.x - 1), sq_nonneg (v.x + 1), sq_nonneg v.y]
  · rw [abs_le]
    constructor <;> nlinarith [sq_nonneg (v.y - 1), sq_nonneg (v.y + 1), sq_nonneg v.x]

theorem connectionTick_of_ne (s : Sim) (h : s.state ≠ GameState.CONNECTION) :
    connectionTick s = s := by
  unfold connectionTick
  rw [if_neg h]

theorem frames_add (env : Env) (u : ℚ) (a b : ℕ) (s : Sim) :
    frames env u (a + b) s = frames env u a (frames env u b s) := by
  induction a with
  | zero => simp [frames]
  | succ a ih =>
    rw [Nat.succ_add]
    simp only [frames, ih]

theorem frames_reachable (env : Env) (u : ℚ) (n : ℕ) (s : Sim) (h : Reachable env s) :
    Reachable env (frames env u n s) := by
  induction n with
  | zero => exact h
  | succ n ih => exact Reachable.next (Action.tick u) ih rfl

theorem freshRun_reachable : Reachable sampleEnv freshRun :=
  Reachable.next (Action.startStop (plainScene [])) (Reachable.start _ _) rfl

theorem longRun_reachable : Reachable sampleEnv longRun :=
  frames_reachable sampleEnv 0 74 freshRun freshRun_reachable

theorem freshRun_cruise : Cruise 0 freshRun ∧ freshRun.state = GameState.DRILLING := by
  have hu := cosQ_sq_add_sinQ_sq startingAngle
  refine ⟨⟨rfl, rfl, ?_, ?_, ?_, ?_, ?_, ?_⟩, ?_⟩
  · simpa [freshRun, startStopAction, startDrill, sampleEnv] using hu
  · intro seg hseg
    simp [freshRun, startStopAction, startDrill] at hseg
  · simp [freshRun, startStopAction, startDrill, startingX]
  · simp [freshRun, startStopAction, startDrill, groundLevel, startingDepth]
    norm_num
  · simp [freshRun, startStopAction, startDrill, oldPathPoint]
  · simp [freshRun, startStopAction, startDrill]
  · simp [freshRun, startStopAction, startDrill]

theorem cruise_connectionTick (n : ℕ) (s : Sim) (h : Cruise n s) : Cruise n (connectionTick s) := by
  unfold connectionTick
  split_ifs <;> exact h

theorem cruise_drill (n : ℕ) (s : Sim) (h : Cruise n s) (hn : n + 1 ≤ 90) :
    Cruise (n + 1) (drill sampleEnv 0 s) ∧
    (drill sampleEnv 0 s).state =
      (if ((n : ℤ) + 1) % 68 = 0 then GameState.CONNECTION else s.state) ∧
    (drill sampleEnv 0 s).connectionCountDown =
      (if ((n : ℤ) + 1) % 68 = 0 then 5 else s.connectionCountDown) := by
  obtain ⟨hsc, hlen, hdir, hpath, hx, hy, hside, hstart⟩ := h
  have hd : (drillDir sampleEnv 0 s).x ^ 2 + (drillDir sampleEnv 0 s).y ^ 2 = 1 :=
    sampleEnv_rotate_unit _ _ (sampleEnv_rotate_unit _ _ hdir)
  obtain ⟨hdx, hdy⟩ := unit_bounds _ hd
  have hpx : (drillPos sampleEnv 0 s).x = s.pos.x + (drillDir sampleEnv 0 s).x := rfl
  have hpy : (drillPos sampleEnv 0 s).y = s.pos.y + (drillDir sampleEnv 0 s).y := rfl
  have hn' : ((n : ℚ) + 1) ≤ 90 := by exact_mod_cast hn
  rw [abs_le] at hx hy hdx hdy
  have hin : outOfBounds (drillPos sampleEnv 0 s) = false := by
    simp only [outOfBounds, width, height, decide_eq_false_iff_not, hpx, hpy]
    intro hout
    rcases hout with h1 | h1 | h1 <;> linarith [hx.1, hx.2, hy.1, hy.2, hdx.1, hdx.2, hdy.1, hdy.2]
  have hcol : drillColor sampleEnv 0 s = [11, 106, 136] := by
    simp [drillColor, hsc, plainScene]
  refine ⟨⟨?_, ?_, ?_, ?_, ?_, ?_, ?_, ?_⟩, ?_, ?_⟩
  · rw [drill_hddScene, hsc]
  · rw [drill_path, List.length_append, hlen]
    rfl
  · rw [drill_dir]
    exact hd
  · intro seg hseg
    rw [drill_path, List.mem_append, List.mem_singleton] at hseg
    rcases hseg with hseg | hseg
    · exact hpath seg hseg
    · rw [hseg]
      exact hd
  · rw [drill_pos, hpx, abs_le]
    push_cast
    constructor <;> linarith [hx.1, hx.2, hdx.1, hdx.2]
  · rw [drill_pos, hpy, abs_le]
    push_cast
    constructor <;> linarith [hy.1, hy.2, hdy.1, hdy.2]
  · rw [drill_sideTrackCount, hside]
  · rw [drill_startCount, hstart]
  · rw [drill_state, hcol, hin, hlen, pipeLength_eq]
    simp [goalColor, boulderColor, backgroundColor, riverColor, boundaryColor]
  · rw [drill_connectionCountDown, hlen, pipeLength_eq]
    rfl

theorem cruise_frames_drilling (n k : ℕ) (s : Sim) (h : Cruise n s)
    (hs : s.state = GameState.DRILLING)
    (hk : ∀ j : ℕ, n < j → j ≤ n + k → ((j : ℤ)) % 68 ≠ 0) (hn : n + k ≤ 90) :
    Cruise (n + k) (frames sampleEnv 0 k s) ∧
    (frames sampleEnv 0 k s).state = GameState.DRILLING := by
  induction k with
  | zero => exact ⟨h, hs⟩
  | succ k ih =>
    obtain ⟨hc, hst⟩ := ih (fun j h1 h2 => hk j h1 (by omega)) (by omega)
    obtain ⟨hc', hst', _⟩ := cruise_drill (n + k) _ hc (by omega)
    have hmod : ¬ (((n + k : ℕ) : ℤ) + 1) % 68 = 0 := by
      have := hk (n + k + 1) (by omega) (by omega)
      push_cast at this ⊢
      exact this
    rw [if_neg hmod, hst] at hst'
    have hd : frames sampleEnv 0 (k + 1) s = drill sampleEnv 0 (frames sampleEnv 0 k s) := by
      simp only [frames, draw]
      rw [if_pos hst, connectionTick_of_ne _ (by rw [hst']; decide)]
    rw [hd]
    exact ⟨hc', hst'⟩

theorem cruise_connection_frame (n : ℕ) (s : Sim) (h : Cruise n s)
    (hs : s.state = GameState.CONNECTION) :
    Cruise n (draw sampleEnv 0 s) ∧
    (draw sampleEnv 0 s).connectionCountDown = s.connectionCountDown - 1 ∧
    (draw sampleEnv 0 s).state =
      (if s.connectionCountDown - 1 ≤ 0 then GameState.DRILLING else GameState.CONNECTION) := by
  have hd : draw sampleEnv 0 s = connectionTick s := by
    unfold draw
    rw [if_neg (by rw [hs]; decide)]
  rw [hd]
  refine ⟨cruise_connectionTick n s h, ?_, ?_⟩
  · unfold connectionTick
    rw [if_pos hs]
    split_ifs <;> rfl
  · rw [connectionTick_state, if_pos hs]

theorem cruise_connecting_frame (n : ℕ) (s : Sim) (h : Cruise n s)
    (hs : s.state = GameState.DRILLING) (hm : ((n : ℤ) + 1) % 68 = 0) (hn : n + 1 ≤ 90) :
    Cruise (n + 1) (draw sampleEnv 0 s) ∧
    (draw sampleEnv 0 s).connectionCountDown = 4 ∧
    (draw sampleEnv 0 s).state = GameState.CONNECTION := by
  obtain ⟨hc, hst, hcd⟩ := cruise_drill n s h hn
  rw [if_pos hm] at hst hcd
  have hd : draw sampleEnv 0 s = connectionTick (drill sampleEnv 0 s) := by
    unfold draw
    rw [if_pos hs]
  rw [hd]
  refine ⟨cruise_connectionTick _ _ hc, ?_, ?_⟩
  · unfold connectionTick
    rw [if_pos hst, hcd]
    rfl
  · rw [connectionTick_state, if_pos hst, hcd]
    rfl

theorem longRun_cruise : Cruise 70 longRun ∧ longRun.state = GameState.DRILLING := by
  obtain ⟨c67, s67⟩ := cruise_frames_drilling 0 67 freshRun freshRun_cruise.1 freshRun_cruise.2
    (fun j h1 h2 => by omega) (by norm_num)
  obtain ⟨c68, d68, s68⟩ := cruise_connecting_frame (0 + 67) _ c67 s67 (by decide) (by norm_num)
  obtain ⟨c69, d69, s69⟩ := cruise_connection_frame _ _ c68 s68
  rw [d68] at d69 s69
  obtain ⟨c70, d70, s70⟩ := cruise_connection_frame _ _ c69 (by rw [s69]; rfl)
  rw [d69] at d70 s70
  obtain ⟨c71, d71, s71⟩ := cruise_connection_frame _ _ c70 (by rw [s70]; rfl)
  rw [d70] at d71 s71
  obtain ⟨c72, d72, s72⟩ := cruise_connection_frame _ _ c71 (by rw [s71]; rfl)
  rw [d71] at d72 s72
  have h72 : (draw sampleEnv 0 (draw sampleEnv 0 (draw sampleEnv 0 (draw sampleEnv 0
      (draw sampleEnv 0 (frames sampleEnv 0 67 freshRun)))))).state = GameState.DRILLING := by
    rw [s72]
    rfl
  have hfin := cruise_frames_drilling (0 + 67 + 1) 2 _ c72 h72 (fun j h1 h2 => by omega)
    (by norm_num)
  exact hfin

theorem longRun_prevPosition : 0 < prevPosition longRun := by
  have hp : longRun.pathPosition = (longRun.path.length : ℤ) - 1 :=
    pathInv_reachable sampleEnv longRun longRun_reachable
  rw [longRun_cruise.1.2.1] at hp
  rw [prevPosition_eq, hp]
  decide

/-- The fresh run drilled for 70 steps is reachable and has unit directions;
pulling it back and pressing start counts the first side-track and the second
start. -/
theorem pullBack_resume_sideTrack_witness :
    Reachable sampleEnv longRun ∧
    ∃ t, pullBack longRun = some t ∧
      (startStopAction sampleEnv (plainScene []) t).sideTrackCount = 1 ∧
      (startStopAction sampleEnv (plainScene []) t).startCount = 2 := by
  obtain ⟨t, _, hpb, _, _, _, _, hside, hstart⟩ :=
    (pullBack_resume_sideTrack sampleEnv (plainScene []) longRun longRun_reachable
      longRun_cruise.1.2.2.2.1 sampleEnv_dist_near (Or.inr (Or.inl longRun_cruise.2))
      longRun_prevPosition).2
  rw [longRun_cruise.1.2.2.2.2.2.2.1] at hside
  rw [longRun_cruise.1.2.2.2.2.2.2.2] at hstart
  exact ⟨longRun_reachable, t, hpb, hside, hstart⟩

end DirectionalBoring
